import Mathlib

/-!
# Items of the track: the collect / return / switch state machine

A shallow embedding of `jni/items/item.cpp`.  Every member function of the
class `Item` becomes a function on an explicit record of the member variables;
the scene node the item owns becomes a record of the attributes the item
writes to it (mesh, position, rotation, scale, visibility, culling hint).

Conventions of the embedding:

* `float` values are rationals.  `Item.update` reads the three `float`
  operations of the source (`-=`, `1 - x`, `+= dt*180`) as exact arithmetic;
  `Item.updateWith fl` rounds the result of every such operation with `fl`,
  and `Item.update32` is the instance with `fl32`, the binary32 rounding
  (nearest, ties to even) of the `float` type.  Results about branches,
  signs, counters and unchanged fields are stated for `Item.update`; results
  that depend on the value of a sum or difference are stated for
  `Item.update32`.  Infinities and NaN are not represented;
* pointers (`Kart*`, `scene::IMesh*`) are opaque handles; a `Kart*` may be
  `NULL`, which is `none`;
* the two process-wide singletons the source reads (`stk_config`,
  `irr_driver`) and the `Vec3` conversions it calls are gathered in the
  record `World`, which is passed explicitly;
* reference counting (`grab`, `drop`) and the `DEBUG`-only node name are not
  part of the state.
-/

namespace STK

/-- Modelled from the spec: the enumeration `Item::ItemType` is declared in
`items/item.hpp`, which is not among the sources; the spec lists it as
`{NONE, BONUS_BOX, BANANA, BUBBLEGUM, NITRO_SMALL, NITRO_BIG, ...}`.  The
constructor `ITEM_OTHER` stands for the members the ellipsis leaves unnamed. -/
inductive ItemType where
  | ITEM_NONE
  | ITEM_BONUS_BOX
  | ITEM_BANANA
  | ITEM_BUBBLEGUM
  | ITEM_NITRO_SMALL
  | ITEM_NITRO_BIG
  | ITEM_OTHER (tag : Nat)
  deriving DecidableEq, Repr

open ItemType

/-- A `Vec3` of the game (bullet coordinates). -/
structure Vec3 where
  x : ℚ
  y : ℚ
  z : ℚ
  deriving DecidableEq

/-- The `core::vector3df` of the render backend. -/
structure vector3df where
  X : ℚ
  Y : ℚ
  Z : ℚ
  deriving DecidableEq

/-- The product `v * f` of `core::vector3df` with a scalar. -/
def vector3df.smul (v : vector3df) (f : ℚ) : vector3df :=
  ⟨v.X * f, v.Y * f, v.Z * f⟩

/-- Handle of a `scene::IMesh`. -/
abbrev Mesh := Nat

/-- A `Kart*`: `none` is `NULL`. -/
abbrev KartPtr := Option Nat

/-- The culling hints of the render backend (`scene::E_CULLING_TYPE`). -/
inductive E_CULLING_TYPE where
  | EAC_OFF
  | EAC_BOX
  | EAC_FRUSTUM_BOX
  | EAC_FRUSTUM_SPHERE
  deriving DecidableEq

/-- What the item can write to and read from the scene node it owns. -/
structure SceneNode where
  mesh     : Mesh
  position : vector3df
  rotation : vector3df
  scale    : vector3df
  visible  : Bool
  culling  : E_CULLING_TYPE
  deriving DecidableEq

/-- The collaborators `item.cpp` reaches through globals and through the
`Vec3` class, none of which is defined in the sources at hand:
`stk_config->m_bubble_gum_counter`, `irr_driver->addMesh`,
`Vec3::toIrrVector` and the composite `Vec3(0, normal).toIrrHPR()`. -/
structure World where
  m_bubble_gum_counter : Int
  addMesh              : Mesh → SceneNode
  toIrrVector          : Vec3 → vector3df
  hprOfNormal          : Vec3 → vector3df

/-- The member variables of `Item`. -/
structure Item where
  m_type              : ItemType
  m_rotate            : Bool
  m_original_type     : ItemType
  m_xyz               : Vec3
  m_collected         : Bool
  m_time_till_return  : ℚ
  m_deactive_time     : ℚ
  m_disappear_counter : Int
  m_event_handler     : KartPtr
  m_item_id           : Nat
  m_original_mesh     : Mesh
  m_node              : SceneNode
  deriving DecidableEq

/-- The value `m_type==ITEM_BUBBLEGUM ? stk_config->m_bubble_gum_counter : -1`
that the constructor and `reset` store in `m_disappear_counter`. -/
def initialCounter (w : World) (t : ItemType) : Int :=
  if t = ITEM_BUBBLEGUM then w.m_bubble_gum_counter else -1

/-- `Item::setType`. -/
def Item.setType (s : Item) (type : ItemType) : Item :=
  { s with m_type := type, m_rotate := decide (type ≠ ITEM_BUBBLEGUM) }

/-- The constructor `Item::Item` (named `Item.new`, because `Item.Item` would
shadow the record type).  It first calls `setType`, then initialises the other
members, creates the node and places it. -/
def Item.new (w : World) (type : ItemType) (xyz normal : Vec3) (mesh : Mesh)
    (item_id : Nat) : Item :=
  let node := w.addMesh mesh
  { m_type              := type
    m_rotate            := decide (type ≠ ITEM_BUBBLEGUM)
    m_event_handler     := none
    m_xyz               := xyz
    m_deactive_time     := 0
    m_item_id           := item_id
    m_original_type     := ITEM_NONE
    m_collected         := false
    m_time_till_return  := 0
    m_disappear_counter := initialCounter w type
    m_original_mesh     := mesh
    m_node              :=
      { node with
        culling  := E_CULLING_TYPE.EAC_FRUSTUM_BOX
        position := w.toIrrVector xyz
        rotation := w.hprOfNormal normal } }

/-- `Item::switchTo`. -/
def Item.switchTo (s : Item) (type : ItemType) (mesh : Mesh) : Item :=
  let s1 := { s with m_original_type := s.m_type }
  let s2 := s1.setType type
  { s2 with m_node := { s2.m_node with mesh := mesh } }

/-- `Item::switchBack`. -/
def Item.switchBack (s : Item) : Item :=
  if s.m_original_type = ITEM_NONE then s
  else
    let s1 := s.setType s.m_original_type
    let s2 := { s1 with m_original_type := ITEM_NONE }
    { s2 with m_node := { s2.m_node with mesh := s2.m_original_mesh } }

/-- `Item::reset`.  The counter is assigned from `m_type` before the
type switch is reverted, in the order of the source. -/
def Item.reset (w : World) (s : Item) : Item :=
  let s1 := { s with
    m_collected         := false
    m_time_till_return  := 0
    m_deactive_time     := 0
    m_disappear_counter := initialCounter w s.m_type }
  let s2 :=
    if s1.m_original_type ≠ ITEM_NONE then
      { s1.setType s1.m_original_type with m_original_type := ITEM_NONE }
    else s1
  { s2 with m_node := { s2.m_node with scale := ⟨1, 1, 1⟩ } }

/-- `Item::setParent`. -/
def Item.setParent (s : Item) (parent : KartPtr) : Item :=
  { s with m_event_handler := parent, m_deactive_time := 3 / 2 }

/-- `Item::update`. -/
def Item.update (s : Item) (dt : ℚ) : Item :=
  let s1 :=
    if s.m_deactive_time > 0 then
      { s with m_deactive_time := s.m_deactive_time - dt }
    else s
  if s1.m_collected then
    let s2 := { s1 with m_time_till_return := s1.m_time_till_return - dt }
    if s2.m_time_till_return < 0 then
      { s2 with
        m_collected := false
        m_node      := { s2.m_node with scale := ⟨1, 1, 1⟩ } }
    else if s2.m_time_till_return ≤ 1 then
      { s2 with
        m_node := { s2.m_node with
          visible := true
          scale   := vector3df.smul ⟨1, 1, 1⟩ (1 - s2.m_time_till_return) } }
    else s2
  else
    if ¬ s1.m_rotate then s1
    else
      let r  := s1.m_node.rotation
      let r1 := { r with Y := r.Y + dt * 180 }
      let r2 := if r1.Y > 360 then { r1 with Y := r1.Y - 360 } else r1
      { s1 with m_node := { s1.m_node with rotation := r2 } }

/-- `Item::collected`. -/
def Item.collected (s : Item) (kart : KartPtr) (t : ℚ) : Item :=
  let s1 := { s with m_collected := true, m_event_handler := kart }
  if s1.m_type = ITEM_BUBBLEGUM ∧ s1.m_disappear_counter > 0 then
    { s1 with
      m_disappear_counter := s1.m_disappear_counter - 1
      m_deactive_time     := 1 / 2
      m_time_till_return  := -1 }
  else
    { s1 with
      m_time_till_return := t
      m_node             := { s1.m_node with visible := false } }

/-- One call of a member function of `Item` on an existing item. -/
inductive ItemOp where
  | setType (type : ItemType)
  | switchTo (type : ItemType) (mesh : Mesh)
  | switchBack
  | reset
  | setParent (parent : KartPtr)
  | update (dt : ℚ)
  | collected (kart : KartPtr) (t : ℚ)
  deriving DecidableEq

/-- The effect of one call. -/
def ItemOp.apply (w : World) (s : Item) : ItemOp → Item
  | .setType type       => s.setType type
  | .switchTo type mesh => s.switchTo type mesh
  | .switchBack         => s.switchBack
  | .reset              => s.reset w
  | .setParent parent   => s.setParent parent
  | .update dt          => s.update dt
  | .collected kart t   => s.collected kart t

/-- The effect of a sequence of calls, first call first. -/
def runOps (w : World) (s : Item) (ops : List ItemOp) : Item :=
  ops.foldl (ItemOp.apply w) s

/-- A sequence of `update` calls, one per time step. -/
def updates (s : Item) (dts : List ℚ) : Item :=
  dts.foldl Item.update s

/-- The call is a `collected` call. -/
def ItemOp.isCollected : ItemOp → Bool
  | .collected _ _ => true
  | _              => false

/-- The call is an `update` or a `collected` call. -/
def ItemOp.isUpdateOrCollected : ItemOp → Bool
  | .update _      => true
  | .collected _ _ => true
  | _              => false

/-- The call is one of `switchBack`, `reset`, `setParent`, `update`,
`collected`, or a `switchTo` whose new type is a bubblegum exactly when the
current type of the item is one. -/
def ItemOp.keepsGumClass (s : Item) : ItemOp → Bool
  | .setType _       => false
  | .switchTo type _ => decide (type = ITEM_BUBBLEGUM ↔ s.m_type = ITEM_BUBBLEGUM)
  | _                => true

/-- Every call of the sequence, at the state it is made in, satisfies
`ItemOp.keepsGumClass`. -/
def keepsGumClass (w : World) : Item → List ItemOp → Bool
  | _, []        => true
  | s, op :: ops => op.keepsGumClass s && keepsGumClass w (op.apply w s) ops

/-- The `rotate` flag is the one `setType` derives from the type. -/
def RotateOK (s : Item) : Prop :=
  s.m_rotate = decide (s.m_type ≠ ITEM_BUBBLEGUM)

instance (s : Item) : Decidable (RotateOK s) := by
  unfold RotateOK
  infer_instance

/-- The counter is non-negative exactly for a bubblegum, and the type a
switched item will revert to is a bubblegum exactly when its current type
is one. -/
def GumOK (s : Item) : Prop :=
  (0 ≤ s.m_disappear_counter ↔ s.m_type = ITEM_BUBBLEGUM)
    ∧ (s.m_original_type ≠ ITEM_NONE →
        (s.m_original_type = ITEM_BUBBLEGUM ↔ s.m_type = ITEM_BUBBLEGUM))

instance (s : Item) : Decidable (GumOK s) := by
  unfold GumOK
  infer_instance

/-- While the item is collected, its timer is at least 1 or its node has
already been made visible. -/
def ShownBeforeReturn (s : Item) : Prop :=
  s.m_collected = true → 1 ≤ s.m_time_till_return ∨ s.m_node.visible = true

instance (s : Item) : Decidable (ShownBeforeReturn s) := by
  unfold ShownBeforeReturn
  infer_instance

/-- The yaw of the node (the `Y` component of its rotation) lies in the closed
interval from 0 to 360. -/
def YawInRange (s : Item) : Prop :=
  0 ≤ s.m_node.rotation.Y ∧ s.m_node.rotation.Y ≤ 360

instance (s : Item) : Decidable (YawInRange s) := by
  unfold YawInRange
  infer_instance

/-- `TrackObjectManager::TrackObjectType`. -/
inductive TrackObjectType where
  | TO_PHYSICAL
  | TO_GRAPHICAL
  deriving DecidableEq

/-- Modelled from the spec: the class `TrackObject` is only forward-declared in
`track_object_manager.hpp`.  An object has an identity (its address, the
value a `PhysicalObject*` is compared with) and the "static classification
fixed at add-time", physical or purely graphical. -/
structure TrackObject where
  addr : Nat
  kind : TrackObjectType
  deriving DecidableEq

/-- The member of `TrackObjectManager`: all objects, in insertion order. -/
structure TrackObjectManager where
  m_all_objects : List TrackObject

/-- One explosion-reaction query delivered to the object `target`, "carrying
position and the source object". -/
structure ExplosionQuery where
  target : Nat
  pos    : Vec3
  source : Option Nat
  deriving DecidableEq

/-- Modelled from the spec: `TrackObjectManager::handleExplosion` is declared
in `track_object_manager.hpp`, its body is not among the sources.  The spec:
it "iterates only objects classified physical, and for each, delegates an
explosion-reaction query carrying `position` and the source object (excluded
from affecting itself)", and it "never notifies the designated source object
even if physical".  The result is the list of the queries delivered, in
insertion order of the objects. -/
def TrackObjectManager.handleExplosion (m : TrackObjectManager) (pos : Vec3)
    (mp : Option Nat) : List ExplosionQuery :=
  (m.m_all_objects.filter
      (fun o => decide (o.kind = TrackObjectType.TO_PHYSICAL ∧ some o.addr ≠ mp))).map
    (fun o => ⟨o.addr, pos, mp⟩)

/-- How many queries of one `handleExplosion` call the object at `addr`
receives. -/
def notifications (qs : List ExplosionQuery) (addr : Nat) : Nat :=
  (qs.map ExplosionQuery.target).count addr

/-- A manager with a physical object at 10, a graphical one at 11 and a
physical one at 12. -/
def sampleManager : TrackObjectManager :=
  ⟨[⟨10, TrackObjectType.TO_PHYSICAL⟩, ⟨11, TrackObjectType.TO_GRAPHICAL⟩,
    ⟨12, TrackObjectType.TO_PHYSICAL⟩]⟩

/-- The integer nearest to `q`, the even one of the two when `q` lies half way
between two integers. -/
def roundHalfEven (q : ℚ) : ℤ :=
  if q - ⌊q⌋ < 1 / 2 then ⌊q⌋
  else if 1 / 2 < q - ⌊q⌋ then ⌊q⌋ + 1
  else if ⌊q⌋ % 2 = 0 then ⌊q⌋ else ⌊q⌋ + 1

/-- The exponent of the unit in the last place of binary32 at `q`: 23 below
the binary exponent of `q`, and -149 throughout the subnormal range. -/
def ulpExp32 (q : ℚ) : ℤ :=
  if q = 0 then -149 else max (Int.log 2 |q|) (-126) - 23

/-- The binary32 value a `float` operation of the source delivers when its
exact result is `q`: the multiple of the unit in the last place nearest to
`q`, ties to even.  Overflow to infinity is not represented. -/
def fl32 (q : ℚ) : ℚ :=
  (roundHalfEven (q / 2 ^ ulpExp32 q) : ℚ) * 2 ^ ulpExp32 q

/-- The product `v * f` of `core::vector3df` with a scalar, each component
product rounded with `fl`. -/
def vector3df.smulWith (fl : ℚ → ℚ) (v : vector3df) (f : ℚ) : vector3df :=
  ⟨fl (v.X * f), fl (v.Y * f), fl (v.Z * f)⟩

/-- `Item::update` with the result of every `float` operation rounded by `fl`:
the two `-= dt`, `1-m_time_till_return`, the three products of the scale,
`dt*180.0f`, `r.Y += ...` and `r.Y -= 360.0f`.  Comparisons and assignments
are exact. -/
def Item.updateWith (fl : ℚ → ℚ) (s : Item) (dt : ℚ) : Item :=
  let s1 :=
    if s.m_deactive_time > 0 then
      { s with m_deactive_time := fl (s.m_deactive_time - dt) }
    else s
  if s1.m_collected then
    let s2 := { s1 with m_time_till_return := fl (s1.m_time_till_return - dt) }
    if s2.m_time_till_return < 0 then
      { s2 with
        m_collected := false
        m_node      := { s2.m_node with scale := ⟨1, 1, 1⟩ } }
    else if s2.m_time_till_return ≤ 1 then
      { s2 with
        m_node := { s2.m_node with
          visible := true
          scale   := vector3df.smulWith fl ⟨1, 1, 1⟩ (fl (1 - s2.m_time_till_return)) } }
    else s2
  else
    if ¬ s1.m_rotate then s1
    else
      let r  := s1.m_node.rotation
      let r1 := { r with Y := fl (r.Y + fl (dt * 180)) }
      let r2 := if r1.Y > 360 then { r1 with Y := fl (r1.Y - 360) } else r1
      { s1 with m_node := { s1.m_node with rotation := r2 } }

/-- `Item::update` in binary32 arithmetic. -/
def Item.update32 (s : Item) (dt : ℚ) : Item :=
  Item.updateWith fl32 s dt

/-- A sequence of `update` calls in binary32 arithmetic, one per time step. -/
def updates32 (s : Item) (dts : List ℚ) : Item :=
  dts.foldl Item.update32 s

/-- The bound `2^-24` on the rounding error of one binary32 operation whose
exact result has magnitude at most 2. -/
def halfUlpTwo : ℚ := 1 / 16777216

/-- The bound `2^-25` on the rounding error of one binary32 operation whose
exact result has magnitude at most 1. -/
def halfUlpOne : ℚ := 1 / 33554432

/-- A world for the concrete evaluations: bubblegum counter 3, fresh nodes
visible at unit scale, bullet-to-render axis swap, flat ground. -/
def sampleWorld : World where
  m_bubble_gum_counter := 3
  addMesh     := fun mesh =>
    ⟨mesh, ⟨0, 0, 0⟩, ⟨0, 0, 0⟩, ⟨1, 1, 1⟩, true, E_CULLING_TYPE.EAC_BOX⟩
  toIrrVector := fun v => ⟨v.x, v.z, v.y⟩
  hprOfNormal := fun _ => ⟨0, 0, 0⟩

/-- A banana placed at the origin of `sampleWorld`, mesh 7, id 0. -/
def sampleBanana : Item :=
  Item.new sampleWorld ITEM_BANANA ⟨0, 0, 0⟩ ⟨0, 0, 1⟩ 7 0

/-- A bubblegum placed at the origin of `sampleWorld`, mesh 9, id 1. -/
def sampleGum : Item :=
  Item.new sampleWorld ITEM_BUBBLEGUM ⟨0, 0, 0⟩ ⟨0, 0, 1⟩ 9 1

/-! ## Frame lemmas -/

@[simp]
theorem update_m_type (s : Item) (dt : ℚ) :
    (s.update dt).m_type = s.m_type := by
  unfold Item.update
  simp only []
  split_ifs <;> rfl

@[simp]
theorem update_m_rotate (s : Item) (dt : ℚ) :
    (s.update dt).m_rotate = s.m_rotate := by
  unfold Item.update
  simp only []
  split_ifs <;> rfl

@[simp]
theorem update_m_original_type (s : Item) (dt : ℚ) :
    (s.update dt).m_original_type = s.m_original_type := by
  unfold Item.update
  simp only []
  split_ifs <;> rfl

@[simp]
theorem update_m_disappear_counter (s : Item) (dt : ℚ) :
    (s.update dt).m_disappear_counter = s.m_disappear_counter := by
  unfold Item.update
  simp only []
  split_ifs <;> rfl

@[simp]
theorem collected_m_type (s : Item) (k : KartPtr) (t : ℚ) :
    (s.collected k t).m_type = s.m_type := by
  unfold Item.collected
  simp only []
  split_ifs <;> rfl

@[simp]
theorem collected_m_rotate (s : Item) (k : KartPtr) (t : ℚ) :
    (s.collected k t).m_rotate = s.m_rotate := by
  unfold Item.collected
  simp only []
  split_ifs <;> rfl

@[simp]
theorem collected_m_original_type (s : Item) (k : KartPtr) (t : ℚ) :
    (s.collected k t).m_original_type = s.m_original_type := by
  unfold Item.collected
  simp only []
  split_ifs <;> rfl

@[simp]
theorem runOps_nil (w : World) (s : Item) : runOps w s [] = s := rfl

@[simp]
theorem runOps_cons (w : World) (s : Item) (op : ItemOp) (ops : List ItemOp) :
    runOps w s (op :: ops) = runOps w (op.apply w s) ops := rfl

/-! ## The rotate flag follows the type -/

theorem rotateOK_new (w : World) (type : ItemType) (xyz normal : Vec3) (mesh : Mesh)
    (item_id : Nat) : RotateOK (Item.new w type xyz normal mesh item_id) := by
  simp [RotateOK, Item.new]

theorem rotateOK_apply (w : World) (s : Item) (op : ItemOp) (h : RotateOK s) :
    RotateOK (op.apply w s) := by
  unfold RotateOK at *
  cases op with
  | setType type => simp [ItemOp.apply, Item.setType]
  | switchTo type mesh => simp [ItemOp.apply, Item.switchTo, Item.setType]
  | switchBack =>
    simp only [ItemOp.apply, Item.switchBack]
    split_ifs
    · exact h
    · simp [Item.setType]
  | reset =>
    simp only [ItemOp.apply, Item.reset]
    split_ifs
    · simp [Item.setType]
    · simpa using h
  | setParent parent => simpa [ItemOp.apply, Item.setParent] using h
  | update dt => simpa [ItemOp.apply] using h
  | collected kart t => simpa [ItemOp.apply] using h

theorem rotateOK_runOps (w : World) (ops : List ItemOp) :
    ∀ s : Item, RotateOK s → RotateOK (runOps w s ops) := by
  induction ops with
  | nil => intro s h; simpa using h
  | cons op ops ih =>
    intro s h
    rw [runOps_cons]
    exact ih _ (rotateOK_apply w s op h)

/-- C5: in every state reached from the constructor by any sequence of
`setType`, `switchTo`, `switchBack`, `reset`, `setParent`, `update` and
`collected` calls, `rotate` equals `type != BUBBLEGUM`: a bubblegum never
rotates and every other type always does. -/
theorem rotate_iff_not_bubblegum (w : World) (type : ItemType) (xyz normal : Vec3)
    (mesh : Mesh) (item_id : Nat) (ops : List ItemOp) :
    (runOps w (Item.new w type xyz normal mesh item_id) ops).m_rotate
      = decide ((runOps w (Item.new w type xyz normal mesh item_id) ops).m_type
          ≠ ITEM_BUBBLEGUM) :=
  rotateOK_runOps w ops _ (rotateOK_new w type xyz normal mesh item_id)

/-! ## Switching the type and switching back -/

theorem switchBack_original_type (s : Item) :
    s.switchBack.m_original_type = ITEM_NONE := by
  unfold Item.switchBack
  split_ifs with h
  · exact h
  · rfl

theorem switchBack_of_not_switched (s : Item) (h : s.m_original_type = ITEM_NONE) :
    s.switchBack = s := by
  unfold Item.switchBack
  exact if_pos h

/-- C8: `switchBack` is idempotent on the whole state: a second call in a row
returns exactly the state the first call produced, for a switched item and for
an item that is not switched. -/
theorem switchBack_idempotent (s : Item) :
    s.switchBack.switchBack = s.switchBack :=
  switchBack_of_not_switched _ (switchBack_original_type s)

/-- C9 as stated fails: after `switchTo(NONE, 5); switchTo(BANANA, 6);
switchBack()` on the sample banana the type is `BANANA`, not the type `NONE`
the item had immediately before the second `switchTo`. -/
theorem switch_twice_back_none_counterexample :
    ¬ ((((sampleBanana.switchTo ITEM_NONE 5).switchTo ITEM_BANANA 6).switchBack).m_type
        = ITEM_NONE) := by
  simp [Item.switchBack, Item.switchTo, Item.setType]

/-- C9, amended: after `switchTo(A, meshA); switchTo(B, meshB); switchBack()`
the original type is `NONE`, and the type is `A` whenever `A` is not `NONE`;
when `A` is `NONE` the guard of `switchBack` makes the call a no-op and the
type stays `B`. -/
theorem switch_twice_back_last_write_wins (s : Item) (A B : ItemType) (meshA meshB : Mesh) :
    (((s.switchTo A meshA).switchTo B meshB).switchBack).m_type
        = (if A = ITEM_NONE then B else A)
      ∧ (((s.switchTo A meshA).switchTo B meshB).switchBack).m_original_type
        = ITEM_NONE := by
  refine ⟨?_, switchBack_original_type _⟩
  by_cases hA : A = ITEM_NONE
  · simp [Item.switchBack, Item.switchTo, Item.setType, hA]
  · simp [Item.switchBack, Item.switchTo, Item.setType, hA]

theorem switchTo_switchBack_of_rotateOK (s : Item) (X : ItemType) (m : Mesh)
    (hrot : RotateOK s) (horig : s.m_original_type = ITEM_NONE)
    (hty : s.m_type ≠ ITEM_NONE) (hmesh : s.m_node.mesh = s.m_original_mesh) :
    (s.switchTo X m).switchBack = s := by
  obtain ⟨ty, rot, orig, xyz, col, ttr, dea, cnt, ev, id, om, node⟩ := s
  obtain ⟨nm, np, nr, ns, nv, nc⟩ := node
  simp only [RotateOK] at hrot
  simp only at horig hty hmesh
  subst horig hmesh
  simp [Item.switchBack, Item.switchTo, Item.setType, hty, hrot]

/-- C10: for every item (every state reached from the constructor by member
calls) that is not switched, whose type is not `NONE` and whose node shows the
original mesh, `switchBack()` after `switchTo(X, m)` gives back the state
before the switch, equal in every field. -/
theorem switchTo_switchBack_roundtrip (w : World) (type : ItemType) (xyz normal : Vec3)
    (mesh : Mesh) (item_id : Nat) (ops : List ItemOp) (X : ItemType) (m : Mesh)
    (horig : (runOps w (Item.new w type xyz normal mesh item_id) ops).m_original_type
      = ITEM_NONE)
    (hty : (runOps w (Item.new w type xyz normal mesh item_id) ops).m_type ≠ ITEM_NONE)
    (hmesh : (runOps w (Item.new w type xyz normal mesh item_id) ops).m_node.mesh
      = (runOps w (Item.new w type xyz normal mesh item_id) ops).m_original_mesh) :
    ((runOps w (Item.new w type xyz normal mesh item_id) ops).switchTo X m).switchBack
      = runOps w (Item.new w type xyz normal mesh item_id) ops :=
  switchTo_switchBack_of_rotateOK _ X m
    (rotateOK_runOps w ops _ (rotateOK_new w type xyz normal mesh item_id)) horig hty hmesh

/-- Witness of C10: the sample banana after being collected and updated once,
switched to a bubblegum with mesh 4 and switched back. -/
theorem switchTo_switchBack_roundtrip_witness :
    ((runOps sampleWorld (Item.new sampleWorld ITEM_BANANA ⟨0, 0, 0⟩ ⟨0, 0, 1⟩ 7 0)
        [ItemOp.collected (some 2) 2, ItemOp.update 1]).switchTo ITEM_BUBBLEGUM 4).switchBack
      = runOps sampleWorld (Item.new sampleWorld ITEM_BANANA ⟨0, 0, 0⟩ ⟨0, 0, 1⟩ 7 0)
        [ItemOp.collected (some 2) 2, ItemOp.update 1] :=
  switchTo_switchBack_roundtrip sampleWorld ITEM_BANANA ⟨0, 0, 0⟩ ⟨0, 0, 1⟩ 7 0
    [ItemOp.collected (some 2) 2, ItemOp.update 1] ITEM_BUBBLEGUM 4
    (by simp [ItemOp.apply, Item.new])
    (by simp [ItemOp.apply, Item.new])
    (by
      simp [ItemOp.apply, Item.new, Item.collected, Item.update, sampleWorld]
      norm_num)

/-! ## `reset` -/

/-- What `reset` establishes on every state: the flags and timers are cleared,
the switch is reverted, the scale is full, and the counter is the initial
value of the type the item had when `reset` was entered. -/
theorem reset_fields (w : World) (s : Item) :
    (s.reset w).m_collected = false
      ∧ (s.reset w).m_time_till_return = 0
      ∧ (s.reset w).m_deactive_time = 0
      ∧ (s.reset w).m_original_type = ITEM_NONE
      ∧ (s.reset w).m_node.scale = ⟨1, 1, 1⟩
      ∧ (s.reset w).m_disappear_counter = initialCounter w s.m_type := by
  unfold Item.reset
  by_cases h : s.m_original_type = ITEM_NONE
  · simp [h]
  · simp [h, Item.setType]

/-- On an item that is not switched the counter `reset` stores is the initial
value of the type the item has after the call. -/
theorem reset_counter_of_not_switched (w : World) (s : Item)
    (h : s.m_original_type = ITEM_NONE) :
    (s.reset w).m_disappear_counter = initialCounter w (s.reset w).m_type := by
  unfold Item.reset
  simp [h]

/-- C1, the code at the failing input: a bubblegum of `sampleWorld` (configured
counter 3) that was switched to a banana is a bubblegum again after `reset()`,
but its counter is -1, the value derived from the type before the revert, and
not the initial value 3 of a bubblegum. -/
theorem reset_switched_gum_counter_stale :
    ((sampleGum.switchTo ITEM_BANANA 7).reset sampleWorld).m_type = ITEM_BUBBLEGUM
      ∧ ((sampleGum.switchTo ITEM_BANANA 7).reset sampleWorld).m_disappear_counter = -1
      ∧ initialCounter sampleWorld
          ((sampleGum.switchTo ITEM_BANANA 7).reset sampleWorld).m_type = 3 := by
  simp [Item.reset, Item.switchTo, Item.setType, initialCounter, sampleWorld, sampleGum,
    Item.new]

/-- C6, the code at the failing input: the sample banana is visible when it is
created; after `collected(kart 1, 2.0)` and then `reset()` its node is still
hidden, while `collected` is already false. -/
theorem reset_leaves_collected_item_hidden :
    sampleBanana.m_node.visible = true
      ∧ ((sampleBanana.collected (some 1) 2).reset sampleWorld).m_node.visible = false
      ∧ ((sampleBanana.collected (some 1) 2).reset sampleWorld).m_collected = false := by
  simp [Item.reset, Item.collected, Item.setType, sampleBanana, Item.new, sampleWorld]

/-! ## A negative return delay -/

/-- On the non-bubblegum branch, a negative delay followed by one update with
`dt >= 0` clears `collected` and restores the scale, and the node is hidden. -/
theorem collected_negative_then_update (s : Item) (k : KartPtr) (t dt : ℚ)
    (hbranch : s.m_type ≠ ITEM_BUBBLEGUM ∨ s.m_disappear_counter ≤ 0)
    (ht : t < 0) (hdt : 0 ≤ dt) :
    ((s.collected k t).update dt).m_collected = false
      ∧ ((s.collected k t).update dt).m_node.scale = ⟨1, 1, 1⟩
      ∧ ((s.collected k t).update dt).m_node.visible = false := by
  have hc : ¬ (s.m_type = ITEM_BUBBLEGUM ∧ s.m_disappear_counter > 0) := by
    rintro ⟨h1, h2⟩
    rcases hbranch with h | h
    · exact h h1
    · omega
  have hneg : t - dt < 0 := by linarith
  unfold Item.collected
  simp only [hc, if_false]
  unfold Item.update
  simp only []
  split_ifs <;> simp_all

/-- C7, the code at the failing input: the visible sample banana, collected
with the negative delay -1 and updated once with `dt = 1/60`, has
`collected == false` and scale (1,1,1), but its node is hidden. -/
theorem negative_delay_item_stays_hidden :
    sampleBanana.m_node.visible = true
      ∧ ((sampleBanana.collected (some 1) (-1)).update (1 / 60)).m_collected = false
      ∧ ((sampleBanana.collected (some 1) (-1)).update (1 / 60)).m_node.scale = ⟨1, 1, 1⟩
      ∧ ((sampleBanana.collected (some 1) (-1)).update (1 / 60)).m_node.visible = false := by
  refine ⟨by simp [sampleBanana, Item.new, sampleWorld], ?_⟩
  exact collected_negative_then_update sampleBanana (some 1) (-1) (1 / 60)
    (Or.inl (by simp [sampleBanana, Item.new])) (by norm_num) (by norm_num)

/-! ## Collection and return -/

@[simp]
theorem updates_nil (s : Item) : updates s [] = s := rfl

@[simp]
theorem updates_cons (s : Item) (d : ℚ) (l : List ℚ) :
    updates s (d :: l) = updates (s.update d) l := rfl

theorem update_not_collected (s : Item) (dt : ℚ) (h : s.m_collected = false) :
    (s.update dt).m_collected = false := by
  unfold Item.update
  simp only []
  split_ifs <;> simp_all

theorem updates_not_collected (l : List ℚ) :
    ∀ s : Item, s.m_collected = false → (updates s l).m_collected = false := by
  induction l with
  | nil => intro s h; simpa using h
  | cons d l ih =>
    intro s h
    rw [updates_cons]
    exact ih _ (update_not_collected s d h)

theorem update_collected_expired (s : Item) (dt : ℚ) (h : s.m_collected = true)
    (hneg : s.m_time_till_return - dt < 0) :
    (s.update dt).m_collected = false := by
  unfold Item.update
  simp only []
  split_ifs <;> simp_all

theorem update_collected_pending (s : Item) (dt : ℚ) (h : s.m_collected = true)
    (hpos : 0 ≤ s.m_time_till_return - dt) :
    (s.update dt).m_collected = true
      ∧ (s.update dt).m_time_till_return = s.m_time_till_return - dt := by
  have hn : ¬ (s.m_time_till_return - dt < 0) := not_lt.mpr hpos
  unfold Item.update
  simp only []
  split_ifs <;> simp_all

theorem collected_plain_branch (s : Item) (k : KartPtr) (t : ℚ)
    (h : s.m_type ≠ ITEM_BUBBLEGUM ∨ s.m_disappear_counter ≤ 0) :
    (s.collected k t).m_collected = true
      ∧ (s.collected k t).m_time_till_return = t
      ∧ (s.collected k t).m_node.visible = false
      ∧ (s.collected k t).m_disappear_counter = s.m_disappear_counter := by
  have hc : ¬ (s.m_type = ITEM_BUBBLEGUM ∧ s.m_disappear_counter > 0) := by
    rintro ⟨h1, h2⟩
    rcases h with h | h
    · exact h h1
    · omega
  unfold Item.collected
  simp only [hc, if_false]
  simp

/-! ## The bubblegum counter -/

theorem collected_gum_branch (s : Item) (k : KartPtr) (t : ℚ)
    (hty : s.m_type = ITEM_BUBBLEGUM) (hpos : 0 < s.m_disappear_counter) :
    (s.collected k t).m_disappear_counter = s.m_disappear_counter - 1
      ∧ (s.collected k t).m_time_till_return = -1
      ∧ (s.collected k t).m_deactive_time = 1 / 2
      ∧ (s.collected k t).m_node = s.m_node := by
  have hc : s.m_type = ITEM_BUBBLEGUM ∧ s.m_disappear_counter > 0 := ⟨hty, hpos⟩
  unfold Item.collected
  simp only [hc, and_self, if_true]

/-- Over `update` and `collected` calls a bubblegum stays a bubblegum and its
counter is the start value minus the number of `collected` calls, floored
at 0. -/
theorem gum_counter_runOps (w : World) (pre : List ItemOp) :
    ∀ s : Item, s.m_type = ITEM_BUBBLEGUM → 0 ≤ s.m_disappear_counter →
      (∀ o ∈ pre, o.isUpdateOrCollected = true) →
      (runOps w s pre).m_type = ITEM_BUBBLEGUM
        ∧ (runOps w s pre).m_disappear_counter
            = max (s.m_disappear_counter - (pre.countP ItemOp.isCollected : Nat)) 0 := by
  induction pre with
  | nil =>
    intro s hty h0 _
    simp [hty, h0]
  | cons op pre ih =>
    intro s hty h0 hall
    have hop : op.isUpdateOrCollected = true := hall op (List.mem_cons_self op pre)
    have hrest : ∀ o ∈ pre, o.isUpdateOrCollected = true :=
      fun o ho => hall o (List.mem_cons_of_mem op ho)
    rw [runOps_cons]
    cases op with
    | update dt =>
      obtain ⟨a, b⟩ := ih (s.update dt) (by simpa using hty) (by simpa using h0) hrest
      refine ⟨a, ?_⟩
      rw [ItemOp.apply, b]
      simp [ItemOp.isCollected]
    | collected kart t =>
      by_cases hpos : 0 < s.m_disappear_counter
      · obtain ⟨hcnt, _, _, _⟩ := collected_gum_branch s kart t hty hpos
        obtain ⟨a, b⟩ := ih (s.collected kart t) (by simpa using hty)
          (by rw [hcnt]; omega) hrest
        refine ⟨a, ?_⟩
        rw [ItemOp.apply, b, hcnt]
        simp only [List.countP_cons, ItemOp.isCollected, if_true]
        push_cast
        congr 1
        ring
      · have hle : s.m_disappear_counter ≤ 0 := not_lt.mp hpos
        obtain ⟨_, _, _, hcnt⟩ := collected_plain_branch s kart t (Or.inr hle)
        obtain ⟨a, b⟩ := ih (s.collected kart t) (by simpa using hty)
          (by rw [hcnt]; exact h0) hrest
        refine ⟨a, ?_⟩
        rw [ItemOp.apply, b, hcnt]
        simp only [List.countP_cons, ItemOp.isCollected, if_true]
        push_cast
        have hz : s.m_disappear_counter = 0 := le_antisymm hle h0
        rw [hz]
        omega
    | setType type => simp [ItemOp.isUpdateOrCollected] at hop
    | switchTo type mesh => simp [ItemOp.isUpdateOrCollected] at hop
    | switchBack => simp [ItemOp.isUpdateOrCollected] at hop
    | reset => simp [ItemOp.isUpdateOrCollected] at hop
    | setParent parent => simp [ItemOp.isUpdateOrCollected] at hop

/-- C3: a bubblegum starts with `disappear_counter = N > 0`; `pre` is any
sequence of `update` and `collected` calls made so far and `j` the number of
`collected` calls in it.  If `j < N` the counter before the next
`collected(actor, t)` is `N - j`, and that call decrements it by exactly 1,
sets `time_till_return = -1` and `deactivate_time = 0.5` and leaves the node
(its visibility included) as it is; the `N`-th call leaves the counter at 0.
If `j >= N` the counter is 0 before and after the call, which sets
`time_till_return = t` and hides the node. -/
theorem bubblegum_counter_decrement (w : World) (s : Item) (N : Int) (pre : List ItemOp)
    (actor : KartPtr) (t : ℚ)
    (hty : s.m_type = ITEM_BUBBLEGUM) (hN : s.m_disappear_counter = N) (hpos : 0 < N)
    (hpre : ∀ o ∈ pre, o.isUpdateOrCollected = true) :
    (((pre.countP ItemOp.isCollected : Nat) : Int) < N →
        (runOps w s pre).m_disappear_counter = N - (pre.countP ItemOp.isCollected : Nat)
          ∧ ((runOps w s pre).collected actor t).m_disappear_counter
              = (runOps w s pre).m_disappear_counter - 1
          ∧ ((runOps w s pre).collected actor t).m_time_till_return = -1
          ∧ ((runOps w s pre).collected actor t).m_deactive_time = 1 / 2
          ∧ ((runOps w s pre).collected actor t).m_node = (runOps w s pre).m_node)
      ∧ (((pre.countP ItemOp.isCollected : Nat) : Int) + 1 = N →
        ((runOps w s pre).collected actor t).m_disappear_counter = 0)
      ∧ (N ≤ ((pre.countP ItemOp.isCollected : Nat) : Int) →
        (runOps w s pre).m_disappear_counter = 0
          ∧ ((runOps w s pre).collected actor t).m_disappear_counter = 0
          ∧ ((runOps w s pre).collected actor t).m_time_till_return = t
          ∧ ((runOps w s pre).collected actor t).m_node.visible = false) := by
  obtain ⟨hT, hC⟩ := gum_counter_runOps w pre s hty (by rw [hN]; exact le_of_lt hpos) hpre
  rw [hN] at hC
  have hlt : ((pre.countP ItemOp.isCollected : Nat) : Int) < N →
      (runOps w s pre).m_disappear_counter = N - (pre.countP ItemOp.isCollected : Nat) := by
    intro hj
    rw [hC]
    omega
  refine ⟨fun hj => ?_, fun hj => ?_, fun hj => ?_⟩
  · have h1 := hlt hj
    obtain ⟨a, b, c, d⟩ := collected_gum_branch (runOps w s pre) actor t hT
      (by rw [h1]; omega)
    exact ⟨h1, a, b, c, d⟩
  · have h1 := hlt (by omega)
    obtain ⟨a, _, _, _⟩ := collected_gum_branch (runOps w s pre) actor t hT
      (by rw [h1]; omega)
    rw [a, h1]
    omega
  · have h0 : (runOps w s pre).m_disappear_counter = 0 := by
      rw [hC]
      omega
    obtain ⟨_, b, c, d⟩ := collected_plain_branch (runOps w s pre) actor t
      (Or.inr (by rw [h0]))
    exact ⟨h0, by rw [d, h0], b, c⟩

/-- Witness of C3: the sample bubblegum (counter 3) after one `collected` call
and one `update`; the second `collected` call decrements the counter again,
on the bubblegum branch. -/
theorem bubblegum_counter_decrement_witness :
    (runOps sampleWorld sampleGum
        [ItemOp.collected (some 1) 2, ItemOp.update (1 / 60)]).m_disappear_counter = 3 - (1 : Nat)
      ∧ ((runOps sampleWorld sampleGum
          [ItemOp.collected (some 1) 2, ItemOp.update (1 / 60)]).collected
            (some 1) 2).m_disappear_counter
        = (runOps sampleWorld sampleGum
          [ItemOp.collected (some 1) 2, ItemOp.update (1 / 60)]).m_disappear_counter - 1
      ∧ ((runOps sampleWorld sampleGum
          [ItemOp.collected (some 1) 2, ItemOp.update (1 / 60)]).collected
            (some 1) 2).m_time_till_return = -1
      ∧ ((runOps sampleWorld sampleGum
          [ItemOp.collected (some 1) 2, ItemOp.update (1 / 60)]).collected
            (some 1) 2).m_deactive_time = 1 / 2
      ∧ ((runOps sampleWorld sampleGum
          [ItemOp.collected (some 1) 2, ItemOp.update (1 / 60)]).collected
            (some 1) 2).m_node
        = (runOps sampleWorld sampleGum
          [ItemOp.collected (some 1) 2, ItemOp.update (1 / 60)]).m_node :=
  (bubblegum_counter_decrement sampleWorld sampleGum 3
    [ItemOp.collected (some 1) 2, ItemOp.update (1 / 60)] (some 1) 2
    (by simp [sampleGum, Item.new])
    (by simp [sampleGum, Item.new, initialCounter, sampleWorld])
    (by norm_num)
    (by intro o ho; simp at ho; rcases ho with h | h <;> subst h <;> rfl)).1
    (by simp [ItemOp.isCollected])

/-! ## The counter and the type -/

theorem initialCounter_nonneg_iff (w : World) (hc : 0 ≤ w.m_bubble_gum_counter)
    (t : ItemType) : 0 ≤ initialCounter w t ↔ t = ITEM_BUBBLEGUM := by
  unfold initialCounter
  split_ifs with h
  · simp [h, hc]
  · simp [h]

theorem gumOK_new (w : World) (hc : 0 ≤ w.m_bubble_gum_counter) (type : ItemType)
    (xyz normal : Vec3) (mesh : Mesh) (item_id : Nat) :
    GumOK (Item.new w type xyz normal mesh item_id) := by
  refine ⟨?_, ?_⟩
  · simpa [Item.new] using initialCounter_nonneg_iff w hc type
  · simp [Item.new]

theorem gumOK_apply (w : World) (hc : 0 ≤ w.m_bubble_gum_counter) (s : Item) (op : ItemOp)
    (h : GumOK s) (hop : op.keepsGumClass s = true) : GumOK (op.apply w s) := by
  obtain ⟨h1, h2⟩ := h
  cases op with
  | setType type => simp [ItemOp.keepsGumClass] at hop
  | switchTo type mesh =>
    have hk : type = ITEM_BUBBLEGUM ↔ s.m_type = ITEM_BUBBLEGUM := by
      simpa [ItemOp.keepsGumClass] using hop
    refine ⟨?_, ?_⟩
    · simpa [ItemOp.apply, Item.switchTo, Item.setType] using h1.trans hk.symm
    · intro _
      simpa [ItemOp.apply, Item.switchTo, Item.setType] using hk.symm
  | switchBack =>
    by_cases ho : s.m_original_type = ITEM_NONE
    · rw [ItemOp.apply, switchBack_of_not_switched s ho]
      exact ⟨h1, h2⟩
    · refine ⟨?_, ?_⟩
      · simpa [ItemOp.apply, Item.switchBack, Item.setType, ho] using h1.trans (h2 ho).symm
      · simp [ItemOp.apply, Item.switchBack, Item.setType, ho]
  | reset =>
    have hi := initialCounter_nonneg_iff w hc s.m_type
    by_cases ho : s.m_original_type = ITEM_NONE
    · refine ⟨?_, ?_⟩
      · simpa [ItemOp.apply, Item.reset, ho] using hi
      · simp [ItemOp.apply, Item.reset, ho]
    · refine ⟨?_, ?_⟩
      · simpa [ItemOp.apply, Item.reset, Item.setType, ho] using hi.trans (h2 ho).symm
      · simp [ItemOp.apply, Item.reset, Item.setType, ho]
  | setParent parent => exact ⟨by simpa [ItemOp.apply, Item.setParent] using h1,
      by simpa [ItemOp.apply, Item.setParent] using h2⟩
  | update dt => exact ⟨by simpa [ItemOp.apply] using h1, by simpa [ItemOp.apply] using h2⟩
  | collected kart t =>
    refine ⟨?_, by simpa [ItemOp.apply] using h2⟩
    by_cases hb : s.m_type = ITEM_BUBBLEGUM ∧ 0 < s.m_disappear_counter
    · obtain ⟨a, _, _, _⟩ := collected_gum_branch s kart t hb.1 hb.2
      simp only [ItemOp.apply, collected_m_type, a]
      constructor
      · intro _; exact hb.1
      · intro _; omega
    · have hb2 : s.m_type ≠ ITEM_BUBBLEGUM ∨ s.m_disappear_counter ≤ 0 := by
        by_cases ht : s.m_type = ITEM_BUBBLEGUM
        · exact Or.inr (not_lt.mp (fun hlt => hb ⟨ht, hlt⟩))
        · exact Or.inl ht
      obtain ⟨_, _, _, d⟩ := collected_plain_branch s kart t hb2
      simpa [ItemOp.apply, d] using h1

theorem gumOK_runOps (w : World) (hc : 0 ≤ w.m_bubble_gum_counter) (ops : List ItemOp) :
    ∀ s : Item, GumOK s → keepsGumClass w s ops = true → GumOK (runOps w s ops) := by
  induction ops with
  | nil => intro s h _; simpa using h
  | cons op ops ih =>
    intro s h hk
    simp only [keepsGumClass, Bool.and_eq_true] at hk
    rw [runOps_cons]
    exact ih _ (gumOK_apply w hc s op h hk.1) hk.2

/-- C4 as stated fails: with the configured counter 3 of `sampleWorld`, the
sample banana after `switchTo(BUBBLEGUM, 9)` has type `BUBBLEGUM` and counter
-1, so `disappear_counter >= 0` and `type == BUBBLEGUM` disagree. -/
theorem counter_iff_bubblegum_counterexample :
    0 ≤ sampleWorld.m_bubble_gum_counter
      ∧ ¬ (0 ≤ (runOps sampleWorld
              (Item.new sampleWorld ITEM_BANANA ⟨0, 0, 0⟩ ⟨0, 0, 1⟩ 7 0)
              [ItemOp.switchTo ITEM_BUBBLEGUM 9]).m_disappear_counter
            ↔ (runOps sampleWorld
              (Item.new sampleWorld ITEM_BANANA ⟨0, 0, 0⟩ ⟨0, 0, 1⟩ 7 0)
              [ItemOp.switchTo ITEM_BUBBLEGUM 9]).m_type = ITEM_BUBBLEGUM) := by
  simp [ItemOp.apply, Item.switchTo, Item.setType, Item.new, initialCounter, sampleWorld]

/-- C4, amended: given a configured bubblegum counter `>= 0`, in every state
reached from the constructor (with any type) by a sequence of `switchTo`,
`switchBack`, `reset`, `setParent`, `update` and `collected` calls in which
every `switchTo` goes from a bubblegum to a bubblegum or from a non-bubblegum
to a non-bubblegum, `disappear_counter >= 0` holds if and only if
`type == BUBBLEGUM`. -/
theorem counter_iff_bubblegum (w : World) (type : ItemType) (xyz normal : Vec3)
    (mesh : Mesh) (item_id : Nat) (ops : List ItemOp)
    (hc : 0 ≤ w.m_bubble_gum_counter)
    (hops : keepsGumClass w (Item.new w type xyz normal mesh item_id) ops = true) :
    0 ≤ (runOps w (Item.new w type xyz normal mesh item_id) ops).m_disappear_counter
      ↔ (runOps w (Item.new w type xyz normal mesh item_id) ops).m_type = ITEM_BUBBLEGUM :=
  (gumOK_runOps w hc ops _ (gumOK_new w hc type xyz normal mesh item_id) hops).1

/-- Witness of C4: a bubblegum of `sampleWorld` that is collected, switched to
a bubblegum with another mesh, reset, updated and switched back. -/
theorem counter_iff_bubblegum_witness :
    0 ≤ (runOps sampleWorld (Item.new sampleWorld ITEM_BUBBLEGUM ⟨0, 0, 0⟩ ⟨0, 0, 1⟩ 9 1)
          [ItemOp.collected (some 1) 2, ItemOp.switchTo ITEM_BUBBLEGUM 4, ItemOp.reset,
            ItemOp.update 1, ItemOp.switchBack]).m_disappear_counter
      ↔ (runOps sampleWorld (Item.new sampleWorld ITEM_BUBBLEGUM ⟨0, 0, 0⟩ ⟨0, 0, 1⟩ 9 1)
          [ItemOp.collected (some 1) 2, ItemOp.switchTo ITEM_BUBBLEGUM 4, ItemOp.reset,
            ItemOp.update 1, ItemOp.switchBack]).m_type = ITEM_BUBBLEGUM :=
  counter_iff_bubblegum sampleWorld ITEM_BUBBLEGUM ⟨0, 0, 0⟩ ⟨0, 0, 1⟩ 9 1
    [ItemOp.collected (some 1) 2, ItemOp.switchTo ITEM_BUBBLEGUM 4, ItemOp.reset,
      ItemOp.update 1, ItemOp.switchBack]
    (by simp [sampleWorld])
    (by simp [keepsGumClass, ItemOp.keepsGumClass, ItemOp.apply, Item.new])

/-! ## The bubblegum that is passed over, and the frame of `update` -/

/-- C14: for a bubblegum with `disappear_counter > 0`, any actor, any return
delay `t` and any `dt >= 0`, `collected(actor, t)` followed by one
`update(dt)` leaves `collected == false`, the scale (1,1,1) and the
visibility of the node as it was before the `collected` call. -/
theorem bubblegum_passed_over (s : Item) (actor : KartPtr) (t dt : ℚ)
    (hty : s.m_type = ITEM_BUBBLEGUM) (hpos : 0 < s.m_disappear_counter) (hdt : 0 ≤ dt) :
    ((s.collected actor t).update dt).m_collected = false
      ∧ ((s.collected actor t).update dt).m_node.scale = ⟨1, 1, 1⟩
      ∧ ((s.collected actor t).update dt).m_node.visible = s.m_node.visible := by
  have hc : s.m_type = ITEM_BUBBLEGUM ∧ s.m_disappear_counter > 0 := ⟨hty, hpos⟩
  have hneg : (-1 : ℚ) - dt < 0 := by linarith
  unfold Item.collected
  simp only [hc, and_self, if_true]
  unfold Item.update
  simp only []
  split_ifs <;> simp_all

/-- Witness of C14: the sample bubblegum (counter 3, visible), collected with
delay 2 and updated with `dt = 1/60`. -/
theorem bubblegum_passed_over_witness :
    ((sampleGum.collected (some 1) 2).update (1 / 60)).m_collected = false
      ∧ ((sampleGum.collected (some 1) 2).update (1 / 60)).m_node.scale = ⟨1, 1, 1⟩
      ∧ ((sampleGum.collected (some 1) 2).update (1 / 60)).m_node.visible
          = sampleGum.m_node.visible :=
  bubblegum_passed_over sampleGum (some 1) 2 (1 / 60)
    (by simp [sampleGum, Item.new])
    (by simp [sampleGum, Item.new, initialCounter, sampleWorld])
    (by norm_num)

/-- C17: `update(dt)` never changes the type, the rotate flag, the original
type, the disappear counter, the event handler, the position (of the item and
of its node), the mesh of the node, nor the pitch and roll of the node (the
`X` and `Z` components of its rotation); the rotation is unchanged altogether
unless the item is uncollected and rotating; and on an uncollected,
non-rotating item whose deactivate time is not positive `update(dt)` is the
identity on the whole state. -/
theorem update_frame (s : Item) (dt : ℚ) :
    (s.update dt).m_type = s.m_type
      ∧ (s.update dt).m_rotate = s.m_rotate
      ∧ (s.update dt).m_original_type = s.m_original_type
      ∧ (s.update dt).m_disappear_counter = s.m_disappear_counter
      ∧ (s.update dt).m_event_handler = s.m_event_handler
      ∧ (s.update dt).m_xyz = s.m_xyz
      ∧ (s.update dt).m_node.position = s.m_node.position
      ∧ (s.update dt).m_node.mesh = s.m_node.mesh
      ∧ (s.update dt).m_node.rotation.X = s.m_node.rotation.X
      ∧ (s.update dt).m_node.rotation.Z = s.m_node.rotation.Z
      ∧ (s.m_collected = true ∨ s.m_rotate = false →
          (s.update dt).m_node.rotation = s.m_node.rotation)
      ∧ (s.m_collected = false → s.m_rotate = false → s.m_deactive_time ≤ 0 →
          s.update dt = s) := by
  refine ⟨update_m_type s dt, update_m_rotate s dt, update_m_original_type s dt,
    update_m_disappear_counter s dt, ?_, ?_, ?_, ?_, ?_, ?_, ?_, ?_⟩
  · unfold Item.update
    simp only []
    split_ifs <;> rfl
  · unfold Item.update
    simp only []
    split_ifs <;> rfl
  · unfold Item.update
    simp only []
    split_ifs <;> rfl
  · unfold Item.update
    simp only []
    split_ifs <;> rfl
  · unfold Item.update
    simp only []
    split_ifs <;> rfl
  · unfold Item.update
    simp only []
    split_ifs <;> rfl
  · intro h
    unfold Item.update
    simp only []
    split_ifs <;> first | rfl | (rcases h with h | h <;> simp_all)
  · intro hc hr hd
    have hd2 : ¬ (s.m_deactive_time > 0) := not_lt.mpr hd
    unfold Item.update
    simp [hc, hr, hd2]

/-- Witness of C17: the sample bubblegum is uncollected, does not rotate and
has deactivate time 0; one update gives back the same state. -/
theorem update_frame_witness : sampleGum.update (1 / 60) = sampleGum :=
  (update_frame sampleGum (1 / 60)).2.2.2.2.2.2.2.2.2.2.2
    (by simp [sampleGum, Item.new]) (by simp [sampleGum, Item.new])
    (by simp [sampleGum, Item.new])

/-! ## An item that returns has been shown -/

theorem shownBeforeReturn_update (s : Item) (dt : ℚ) (h : ShownBeforeReturn s) :
    ShownBeforeReturn (s.update dt) := by
  unfold ShownBeforeReturn at *
  unfold Item.update
  simp only []
  split_ifs <;> simp_all <;> (left; linarith)

theorem shownBeforeReturn_updates (l : List ℚ) :
    ∀ s : Item, ShownBeforeReturn s → ShownBeforeReturn (updates s l) := by
  induction l with
  | nil => intro s h; simpa using h
  | cons d l ih =>
    intro s h
    rw [updates_cons]
    exact ih _ (shownBeforeReturn_update s d h)

theorem update_clears_collected (s : Item) (dt : ℚ) (hc : s.m_collected = true)
    (hclr : (s.update dt).m_collected = false) :
    s.m_time_till_return - dt < 0
      ∧ (s.update dt).m_node.visible = s.m_node.visible
      ∧ (s.update dt).m_node.scale = ⟨1, 1, 1⟩ := by
  by_cases hneg : s.m_time_till_return - dt < 0
  · refine ⟨hneg, ?_, ?_⟩
    · unfold Item.update
      simp only []
      split_ifs <;> simp_all
    · unfold Item.update
      simp only []
      split_ifs <;> simp_all
  · have hp := (update_collected_pending s dt hc (not_lt.mp hneg)).1
    rw [hp] at hclr
    exact absurd hclr (by simp)

theorem update_yaw_rotating (s : Item) (dt : ℚ) (hc : s.m_collected = false)
    (hr : s.m_rotate = true) :
    (s.update dt).m_node.rotation.Y
      = if s.m_node.rotation.Y + dt * 180 > 360 then s.m_node.rotation.Y + dt * 180 - 360
        else s.m_node.rotation.Y + dt * 180 := by
  unfold Item.update
  simp only []
  split_ifs <;> simp_all

theorem yawInRange_update (s : Item) (dt : ℚ) (hc : s.m_collected = false)
    (hr : s.m_rotate = true) (hy : YawInRange s) (h0 : 0 ≤ dt) (h2 : dt ≤ 2) :
    YawInRange (s.update dt) := by
  unfold YawInRange at *
  rw [update_yaw_rotating s dt hc hr]
  obtain ⟨ha, hb⟩ := hy
  split_ifs with h
  · constructor <;> linarith
  · constructor <;> linarith

/-- On a switched item `reset` and `switchBack` agree on the type, the rotate
flag and the original type. -/
theorem reset_reverts_type_like_switchBack (w : World) (s : Item)
    (h : s.m_original_type ≠ ITEM_NONE) :
    (s.reset w).m_type = s.switchBack.m_type
      ∧ (s.reset w).m_rotate = s.switchBack.m_rotate
      ∧ (s.reset w).m_original_type = s.switchBack.m_original_type := by
  simp [Item.reset, Item.switchBack, Item.setType, h]

/-- C15, the code at the failing input: the sample banana (original mesh 7)
switched to a bonus box with mesh 5.  `switchBack()` shows mesh 7 again;
`reset()` reverts the type, the rotate flag and the original type in the same
way but leaves mesh 5 on the node. -/
theorem reset_keeps_switched_mesh :
    (sampleBanana.switchTo ITEM_BONUS_BOX 5).m_original_type ≠ ITEM_NONE
      ∧ ((sampleBanana.switchTo ITEM_BONUS_BOX 5).switchBack).m_node.mesh = 7
      ∧ ((sampleBanana.switchTo ITEM_BONUS_BOX 5).reset sampleWorld).m_node.mesh = 5
      ∧ ((sampleBanana.switchTo ITEM_BONUS_BOX 5).reset sampleWorld).m_type
          = ((sampleBanana.switchTo ITEM_BONUS_BOX 5).switchBack).m_type := by
  simp [Item.reset, Item.switchBack, Item.switchTo, Item.setType, sampleBanana, Item.new]

/-! ## Explosion dispatch -/

theorem handleExplosion_targets (m : TrackObjectManager) (pos : Vec3) (mp : Option Nat) :
    (m.handleExplosion pos mp).map ExplosionQuery.target
      = (m.m_all_objects.filter
          (fun o => decide (o.kind = TrackObjectType.TO_PHYSICAL ∧ some o.addr ≠ mp))).map
        TrackObject.addr := by
  unfold TrackObjectManager.handleExplosion
  rw [List.map_map]
  rfl

theorem notifications_of_notified (m : TrackObjectManager) (pos : Vec3) (mp : Option Nat)
    (hnd : (m.m_all_objects.map TrackObject.addr).Nodup) (o : TrackObject)
    (ho : o ∈ m.m_all_objects)
    (hp : o.kind = TrackObjectType.TO_PHYSICAL ∧ some o.addr ≠ mp) :
    notifications (m.handleExplosion pos mp) o.addr = 1 := by
  unfold notifications
  rw [handleExplosion_targets]
  apply List.count_eq_one_of_mem
  · exact hnd.sublist (List.Sublist.map _ (List.filter_sublist _))
  · exact List.mem_map_of_mem _ (List.mem_filter.mpr ⟨ho, by simpa using hp⟩)

theorem notifications_of_skipped (m : TrackObjectManager) (pos : Vec3) (mp : Option Nat)
    (hnd : (m.m_all_objects.map TrackObject.addr).Nodup) (o : TrackObject)
    (ho : o ∈ m.m_all_objects)
    (hp : ¬ (o.kind = TrackObjectType.TO_PHYSICAL ∧ some o.addr ≠ mp)) :
    notifications (m.handleExplosion pos mp) o.addr = 0 := by
  unfold notifications
  rw [handleExplosion_targets]
  apply List.count_eq_zero_of_not_mem
  intro hmem
  obtain ⟨o2, ho2, haddr⟩ := List.mem_map.mp hmem
  obtain ⟨hin, hq⟩ := List.mem_filter.mp ho2
  have heq : o2 = o := List.inj_on_of_nodup_map hnd hin ho haddr
  subst heq
  exact hp (by simpa using hq)

/-- C13: for a manager whose objects are pairwise distinct and every
`handleExplosion(position, source)` call, an object of the manager that is
physical and is not the source receives exactly one query, a graphical object
receives none, and the source receives none even if it is physical; every
query delivered carries the position and the source. -/
theorem handleExplosion_dispatch (m : TrackObjectManager) (pos : Vec3) (mp : Option Nat)
    (o : TrackObject) (hnd : (m.m_all_objects.map TrackObject.addr).Nodup)
    (ho : o ∈ m.m_all_objects) :
    (o.kind = TrackObjectType.TO_PHYSICAL → some o.addr ≠ mp →
        notifications (m.handleExplosion pos mp) o.addr = 1)
      ∧ (o.kind = TrackObjectType.TO_GRAPHICAL →
        notifications (m.handleExplosion pos mp) o.addr = 0)
      ∧ (some o.addr = mp → notifications (m.handleExplosion pos mp) o.addr = 0)
      ∧ (∀ q ∈ m.handleExplosion pos mp, q.pos = pos ∧ q.source = mp) := by
  refine ⟨fun h1 h2 => notifications_of_notified m pos mp hnd o ho ⟨h1, h2⟩,
    fun h => notifications_of_skipped m pos mp hnd o ho ?_,
    fun h => notifications_of_skipped m pos mp hnd o ho ?_, ?_⟩
  · rintro ⟨h1, _⟩
    rw [h] at h1
    exact absurd h1 (by decide)
  · rintro ⟨_, h2⟩
    exact h2 h
  · intro q hq
    unfold TrackObjectManager.handleExplosion at hq
    obtain ⟨o2, _, rfl⟩ := List.mem_map.mp hq
    exact ⟨rfl, rfl⟩

/-- Witness of C13: in the sample manager, with the physical object at 12 as
the source, the physical object at 10 receives one query, the graphical one at
11 and the source at 12 receive none. -/
theorem handleExplosion_dispatch_witness :
    notifications (sampleManager.handleExplosion ⟨0, 0, 0⟩ (some 12)) 10 = 1
      ∧ notifications (sampleManager.handleExplosion ⟨0, 0, 0⟩ (some 12)) 11 = 0
      ∧ notifications (sampleManager.handleExplosion ⟨0, 0, 0⟩ (some 12)) 12 = 0 :=
  ⟨(handleExplosion_dispatch sampleManager ⟨0, 0, 0⟩ (some 12)
      ⟨10, TrackObjectType.TO_PHYSICAL⟩ (by simp [sampleManager])
      (by simp [sampleManager])).1 rfl (by simp),
   (handleExplosion_dispatch sampleManager ⟨0, 0, 0⟩ (some 12)
      ⟨11, TrackObjectType.TO_GRAPHICAL⟩ (by simp [sampleManager])
      (by simp [sampleManager])).2.1 rfl,
   (handleExplosion_dispatch sampleManager ⟨0, 0, 0⟩ (some 12)
      ⟨12, TrackObjectType.TO_PHYSICAL⟩ (by simp [sampleManager])
      (by simp [sampleManager])).2.2.1 rfl⟩

/-! ## `update` without rounding -/

theorem update_eq_updateWith_id (s : Item) (dt : ℚ) :
    s.update dt = Item.updateWith id s dt := rfl

/-! ## Binary32 rounding -/

theorem roundHalfEven_abs_sub_le (z : ℚ) : |(roundHalfEven z : ℚ) - z| ≤ 1 / 2 := by
  have h1 : (⌊z⌋ : ℚ) ≤ z := Int.floor_le z
  have h2 : z < ⌊z⌋ + 1 := Int.lt_floor_add_one z
  unfold roundHalfEven
  split_ifs <;> push_cast <;> rw [abs_le] <;> constructor <;> linarith

theorem roundHalfEven_le_of_le (z : ℚ) (n : ℤ) (h : z ≤ n) : roundHalfEven z ≤ n := by
  have h0 := roundHalfEven_abs_sub_le z
  rw [abs_le] at h0
  have h3 : ((roundHalfEven z : ℤ) : ℚ) < (n : ℚ) + 1 := by linarith [h0.2]
  have h4 : roundHalfEven z < n + 1 := by exact_mod_cast h3
  omega

theorem le_roundHalfEven_of_le (z : ℚ) (n : ℤ) (h : (n : ℚ) ≤ z) : n ≤ roundHalfEven z := by
  have h0 := roundHalfEven_abs_sub_le z
  rw [abs_le] at h0
  have h3 : (n : ℚ) - 1 < ((roundHalfEven z : ℤ) : ℚ) := by linarith [h0.1]
  have h4 : n - 1 < roundHalfEven z := by exact_mod_cast h3
  omega

theorem roundHalfEven_intCast (n : ℤ) : roundHalfEven (n : ℚ) = n :=
  le_antisymm (roundHalfEven_le_of_le _ n le_rfl) (le_roundHalfEven_of_le _ n le_rfl)

theorem roundHalfEven_eq_of_near (z : ℚ) (n : ℤ) (h : |z - n| < 1 / 2) :
    roundHalfEven z = n := by
  have h0 := roundHalfEven_abs_sub_le z
  rw [abs_le] at h0
  rw [abs_lt] at h
  have h3 : ((roundHalfEven z : ℤ) : ℚ) < (n : ℚ) + 1 := by linarith [h0.2, h.2]
  have h5 : (n : ℚ) - 1 < ((roundHalfEven z : ℤ) : ℚ) := by linarith [h0.1, h.1]
  have h4 : roundHalfEven z < n + 1 := by exact_mod_cast h3
  have h6 : n - 1 < roundHalfEven z := by exact_mod_cast h5
  omega

theorem two_zpow_pos (e : ℤ) : (0 : ℚ) < 2 ^ e := by positivity

theorem ulpExp32_ge (q : ℚ) : -149 ≤ ulpExp32 q := by
  unfold ulpExp32
  split_ifs
  · exact le_rfl
  · have := le_max_right (Int.log 2 |q|) (-126)
    omega

theorem ulpExp32_le (q : ℚ) (m : ℤ) (hm : -126 ≤ m) (h : |q| < 2 ^ (m + 1)) :
    ulpExp32 q ≤ m - 23 := by
  unfold ulpExp32
  split_ifs with h0
  · omega
  · have hpos : 0 < |q| := abs_pos.mpr h0
    have hlog : Int.log 2 |q| < m + 1 :=
      (Int.lt_zpow_iff_log_lt (by norm_num) hpos).mp (by exact_mod_cast h)
    have : max (Int.log 2 |q|) (-126) ≤ m := max_le (by omega) hm
    omega

theorem ulpExp32_eq (q : ℚ) (L : ℤ) (hL : -126 ≤ L) (h1 : 2 ^ L ≤ |q|)
    (h2 : |q| < 2 ^ (L + 1)) : ulpExp32 q = L - 23 := by
  have hpos : 0 < |q| := lt_of_lt_of_le (two_zpow_pos L) h1
  have h0 : q ≠ 0 := abs_pos.mp hpos
  have ha : L ≤ Int.log 2 |q| :=
    (Int.zpow_le_iff_le_log (by norm_num) hpos).mp (by exact_mod_cast h1)
  have hb : Int.log 2 |q| < L + 1 :=
    (Int.lt_zpow_iff_log_lt (by norm_num) hpos).mp (by exact_mod_cast h2)
  unfold ulpExp32
  rw [if_neg h0]
  have : max (Int.log 2 |q|) (-126) = L := by
    rw [max_eq_left (by omega)]
    omega
  omega

theorem fl32_sub_self (q : ℚ) :
    fl32 q - q = ((roundHalfEven (q / 2 ^ ulpExp32 q) : ℚ) - q / 2 ^ ulpExp32 q)
      * 2 ^ ulpExp32 q := by
  have hp := two_zpow_pos (ulpExp32 q)
  unfold fl32
  field_simp

theorem fl32_abs_sub_le (q : ℚ) : |fl32 q - q| ≤ 2 ^ ulpExp32 q / 2 := by
  have hp := two_zpow_pos (ulpExp32 q)
  rw [fl32_sub_self, abs_mul, abs_of_pos hp]
  have h := roundHalfEven_abs_sub_le (q / 2 ^ ulpExp32 q)
  calc |(roundHalfEven (q / 2 ^ ulpExp32 q) : ℚ) - q / 2 ^ ulpExp32 q| * 2 ^ ulpExp32 q
      ≤ 1 / 2 * 2 ^ ulpExp32 q := mul_le_mul_of_nonneg_right h (le_of_lt hp)
    _ = 2 ^ ulpExp32 q / 2 := by ring

theorem fl32_abs_sub_le_of_lt (q : ℚ) (m : ℤ) (hm : -126 ≤ m) (h : |q| < 2 ^ (m + 1)) :
    |fl32 q - q| ≤ 2 ^ (m - 24) := by
  have h1 := fl32_abs_sub_le q
  have h2 := ulpExp32_le q m hm h
  have h3 : (2 : ℚ) ^ ulpExp32 q ≤ 2 ^ (m - 23) :=
    zpow_le_zpow_right₀ (by norm_num) h2
  have h4 : (2 : ℚ) ^ (m - 23) = 2 * 2 ^ (m - 24) := by
    rw [show m - 23 = 1 + (m - 24) by ring, zpow_add₀ (by norm_num)]
    norm_num
  linarith

theorem grid_coarsen (e E n : ℤ) (he : e ≤ E) :
    ∃ m : ℤ, (n : ℚ) * 2 ^ E = (m : ℚ) * 2 ^ e := by
  refine ⟨n * 2 ^ (E - e).toNat, ?_⟩
  have hk : ((E - e).toNat : ℤ) = E - e := Int.toNat_of_nonneg (by omega)
  have hE : (2 : ℚ) ^ E = 2 ^ ((E - e).toNat : ℤ) * 2 ^ e := by
    rw [← zpow_add₀ (by norm_num), hk]
    congr 1
    ring
  rw [hE, zpow_natCast]
  push_cast
  ring

theorem fl32_of_grid (c : ℚ) (m : ℤ) (h : c = (m : ℚ) * 2 ^ ulpExp32 c) : fl32 c = c := by
  have hp := two_zpow_pos (ulpExp32 c)
  have hz : c / 2 ^ ulpExp32 c = (m : ℚ) := by
    rw [div_eq_iff (ne_of_gt hp)]
    exact h
  unfold fl32
  rw [hz, roundHalfEven_intCast]
  exact h.symm

theorem fl32_le_grid (q : ℚ) (E n : ℤ) (he : ulpExp32 q ≤ E) (h : q ≤ (n : ℚ) * 2 ^ E) :
    fl32 q ≤ (n : ℚ) * 2 ^ E := by
  have hp := two_zpow_pos (ulpExp32 q)
  obtain ⟨m, hm⟩ := grid_coarsen (ulpExp32 q) E n he
  rw [hm] at h ⊢
  have hz : q / 2 ^ ulpExp32 q ≤ (m : ℚ) := by
    rw [div_le_iff₀ hp]
    exact h
  have hr : (roundHalfEven (q / 2 ^ ulpExp32 q) : ℚ) ≤ (m : ℚ) := by
    exact_mod_cast roundHalfEven_le_of_le _ m hz
  unfold fl32
  exact mul_le_mul_of_nonneg_right hr (le_of_lt hp)

theorem grid_le_fl32 (q : ℚ) (E n : ℤ) (he : ulpExp32 q ≤ E) (h : (n : ℚ) * 2 ^ E ≤ q) :
    (n : ℚ) * 2 ^ E ≤ fl32 q := by
  have hp := two_zpow_pos (ulpExp32 q)
  obtain ⟨m, hm⟩ := grid_coarsen (ulpExp32 q) E n he
  rw [hm] at h ⊢
  have hz : (m : ℚ) ≤ q / 2 ^ ulpExp32 q := by
    rw [le_div_iff₀ hp]
    exact h
  have hr : (m : ℚ) ≤ (roundHalfEven (q / 2 ^ ulpExp32 q) : ℚ) := by
    exact_mod_cast le_roundHalfEven_of_le _ m hz
  unfold fl32
  exact mul_le_mul_of_nonneg_right hr (le_of_lt hp)

theorem fl32_zero : fl32 0 = 0 := by
  unfold fl32
  simp [roundHalfEven]

theorem fl32_neg_of_le (q : ℚ) (h : q ≤ -1) : fl32 q < 0 := by
  have hq : |q| = -q := abs_of_neg (by linarith)
  have hpos : 0 < |q| := by rw [hq]; linarith
  have h1 : (2 : ℚ) ^ Int.log 2 |q| ≤ |q| := by
    exact_mod_cast Int.zpow_log_le_self (by norm_num) hpos
  have h2 : |q| < (2 : ℚ) ^ (Int.log 2 |q| + 1) := by
    exact_mod_cast Int.lt_zpow_succ_log_self (by norm_num) |q|
  have hL : 0 ≤ Int.log 2 |q| :=
    (Int.zpow_le_iff_le_log (by norm_num) hpos).mp (by rw [hq]; norm_num; linarith)
  have he := ulpExp32_eq q (Int.log 2 |q|) (by omega) h1 h2
  have herr := fl32_abs_sub_le q
  rw [he, abs_le] at herr
  have h3 : (2 : ℚ) ^ (Int.log 2 |q| - 23) ≤ 2 ^ Int.log 2 |q| :=
    zpow_le_zpow_right₀ (by norm_num) (by omega)
  have hp := two_zpow_pos (Int.log 2 |q| - 23)
  linarith [herr.2]

theorem fl32_eq_of_bounds (q : ℚ) (L n : ℤ) (hL : -126 ≤ L) (h1 : 2 ^ L ≤ |q|)
    (h2 : |q| < 2 ^ (L + 1)) (hn : |q / 2 ^ (L - 23) - n| < 1 / 2) :
    fl32 q = (n : ℚ) * 2 ^ (L - 23) := by
  unfold fl32
  rw [ulpExp32_eq q L hL h1 h2, roundHalfEven_eq_of_near _ n hn]

theorem abs_lt_two_zpow_ulpExp32 (q : ℚ) : |q| < 2 ^ (ulpExp32 q + 24) := by
  by_cases h0 : q = 0
  · rw [h0, abs_zero]
    exact two_zpow_pos _
  · have h2 : |q| < (2 : ℚ) ^ (Int.log 2 |q| + 1) := by
      exact_mod_cast Int.lt_zpow_succ_log_self (by norm_num) |q|
    have he : Int.log 2 |q| + 1 ≤ ulpExp32 q + 24 := by
      unfold ulpExp32
      rw [if_neg h0]
      have := le_max_left (Int.log 2 |q|) (-126)
      omega
    exact lt_of_lt_of_le h2 (zpow_le_zpow_right₀ (by norm_num) he)

theorem roundHalfEven_scaled_bounds (q : ℚ) :
    -(2 : ℤ) ^ 24 ≤ roundHalfEven (q / 2 ^ ulpExp32 q)
      ∧ roundHalfEven (q / 2 ^ ulpExp32 q) ≤ (2 : ℤ) ^ 24 := by
  have hp := two_zpow_pos (ulpExp32 q)
  have h := abs_lt_two_zpow_ulpExp32 q
  rw [zpow_add₀ (by norm_num : (2 : ℚ) ≠ 0)] at h
  have hz : |q / 2 ^ ulpExp32 q| < 2 ^ (24 : ℤ) := by
    rw [abs_div, abs_of_pos hp, div_lt_iff₀ hp]
    linarith
  rw [abs_lt] at hz
  constructor
  · apply le_roundHalfEven_of_le
    push_cast
    have : ((2 : ℚ) ^ (24 : ℤ)) = 2 ^ 24 := by norm_num
    linarith [hz.1]
  · apply roundHalfEven_le_of_le
    push_cast
    have : ((2 : ℚ) ^ (24 : ℤ)) = 2 ^ 24 := by norm_num
    linarith [hz.2]

theorem fl32_idem (q : ℚ) : fl32 (fl32 q) = fl32 q := by
  have hp := two_zpow_pos (ulpExp32 q)
  have hge := ulpExp32_ge q
  obtain ⟨hlo, hhi⟩ := roundHalfEven_scaled_bounds q
  have hc : fl32 q = (roundHalfEven (q / 2 ^ ulpExp32 q) : ℚ) * 2 ^ ulpExp32 q := rfl
  generalize roundHalfEven (q / 2 ^ ulpExp32 q) = n at hlo hhi hc
  generalize ulpExp32 q = e at hp hge hc
  have h24 : (2 : ℚ) ^ (e + 24) = 2 ^ 24 * 2 ^ e := by
    rw [zpow_add₀ (by norm_num : (2 : ℚ) ≠ 0)]
    norm_num
    ring
  have h1e : (2 : ℚ) ^ (e + 1) = 2 * 2 ^ e := by
    rw [zpow_add₀ (by norm_num : (2 : ℚ) ≠ 0)]
    norm_num
    ring
  have h25 : (2 : ℚ) ^ (e + 24 + 1) = 2 ^ 25 * 2 ^ e := by
    rw [zpow_add₀ (by norm_num : (2 : ℚ) ≠ 0), h24]
    norm_num
    ring
  rcases lt_or_eq_of_le hhi with hlt | heq
  · rcases lt_or_eq_of_le hlo with hgt | heq2
    · -- the rounded value stays inside the binade
      have hnq : |(n : ℚ)| < 2 ^ 24 := by
        rw [abs_lt]
        constructor
        · exact_mod_cast hgt
        · exact_mod_cast hlt
      have hcabs : |fl32 q| < 2 ^ (e + 23 + 1) := by
        rw [hc, abs_mul, abs_of_pos hp, show e + 23 + 1 = e + 24 by ring, h24]
        exact mul_lt_mul_of_pos_right hnq hp
      have he2 := ulpExp32_le (fl32 q) (e + 23) (by omega) hcabs
      obtain ⟨m, hm⟩ := grid_coarsen (ulpExp32 (fl32 q)) e n (by omega)
      exact fl32_of_grid _ m (by rw [← hm]; exact hc)
    · -- the rounded value is minus the next power of two
      have hcv : fl32 q = -(2 : ℚ) ^ (e + 24) := by
        rw [hc, ← heq2, h24]
        push_cast
        ring
      have habs : |fl32 q| = 2 ^ (e + 24) := by
        rw [hcv, abs_neg, abs_of_pos (two_zpow_pos _)]
      have he2 := ulpExp32_eq (fl32 q) (e + 24) (by omega) (by rw [habs])
        (by rw [habs, h25, h24]; linarith)
      refine fl32_of_grid _ (-(2 : ℤ) ^ 23) ?_
      rw [he2, show e + 24 - 23 = e + 1 by ring, h1e, hcv, h24]
      push_cast
      ring
  · have hcv : fl32 q = (2 : ℚ) ^ (e + 24) := by
      rw [hc, heq, h24]
      push_cast
      ring
    have habs : |fl32 q| = 2 ^ (e + 24) := by
      rw [hcv, abs_of_pos (two_zpow_pos _)]
    have he2 := ulpExp32_eq (fl32 q) (e + 24) (by omega) (by rw [habs])
      (by rw [habs, h25, h24]; linarith)
    refine fl32_of_grid _ ((2 : ℤ) ^ 23) ?_
    rw [he2, show e + 24 - 23 = e + 1 by ring, h1e, hcv, h24]
    push_cast
    ring

theorem fl32_nonneg (q : ℚ) (h : 0 ≤ q) : 0 ≤ fl32 q := by
  have := grid_le_fl32 q (ulpExp32 q) 0 le_rfl (by simpa using h)
  simpa using this

theorem fl32_pow_two (L : ℤ) (hL : -126 ≤ L) : fl32 (2 ^ L) = 2 ^ L := by
  have hp := two_zpow_pos L
  have habs : |(2 : ℚ) ^ L| = 2 ^ L := abs_of_pos hp
  have h2 : (2 : ℚ) ^ L < 2 ^ (L + 1) := zpow_lt_zpow_right₀ (by norm_num) (by omega)
  have he := ulpExp32_eq (2 ^ L) L hL (by rw [habs]) (by rw [habs]; exact h2)
  refine fl32_of_grid _ ((2 : ℤ) ^ 23) ?_
  rw [he, show L = (L - 23) + 23 by ring, zpow_add₀ (by norm_num : (2 : ℚ) ≠ 0)]
  simp only [add_sub_cancel_right]
  push_cast
  norm_num
  ring

theorem fl32_abs_sub_le_two (q : ℚ) (h : |q| ≤ 2) : |fl32 q - q| ≤ halfUlpTwo := by
  rcases lt_or_eq_of_le h with hlt | heq
  · have := fl32_abs_sub_le_of_lt q 0 (by norm_num) (by simpa using hlt)
    have h24 : (2 : ℚ) ^ ((0 : ℤ) - 24) = halfUlpTwo := by
      unfold halfUlpTwo
      norm_num
    rw [h24] at this
    exact this
  · -- the magnitude is exactly 2
    have hq : q = 2 ∨ q = -2 := by
      rcases abs_cases q with ⟨h1, _⟩ | ⟨h1, _⟩
      · left; linarith
      · right; linarith
    have h2 : fl32 2 = 2 := by
      have := fl32_pow_two 1 (by norm_num)
      simpa using this
    have hm2 : fl32 (-2) = -2 := by
      have he := ulpExp32_eq (-2) 1 (by norm_num) (by norm_num) (by norm_num)
      refine fl32_of_grid _ (-(2 : ℤ) ^ 23) ?_
      rw [he]
      norm_num
    have hnn : (0 : ℚ) ≤ halfUlpTwo := by unfold halfUlpTwo; norm_num
    rcases hq with rfl | rfl
    · rw [h2]; simpa using hnn
    · rw [hm2]; simpa using hnn

theorem fl32_abs_sub_le_one (q : ℚ) (h0 : 0 ≤ q) (h1 : q ≤ 1) :
    |fl32 q - q| ≤ halfUlpOne := by
  rcases lt_or_eq_of_le h1 with hlt | heq
  · have habs : |q| < 2 ^ ((-1 : ℤ) + 1) := by
      rw [abs_of_nonneg h0]
      simpa using hlt
    have := fl32_abs_sub_le_of_lt q (-1) (by norm_num) habs
    have h25 : (2 : ℚ) ^ ((-1 : ℤ) - 24) = halfUlpOne := by
      unfold halfUlpOne
      norm_num
    rw [h25] at this
    exact this
  · have h2 : fl32 1 = 1 := by
      have := fl32_pow_two 0 (by norm_num)
      simpa using this
    have hnn : (0 : ℚ) ≤ halfUlpOne := by unfold halfUlpOne; norm_num
    rw [heq, h2]
    simpa using hnn

theorem fl32_le_two (q : ℚ) (h : q ≤ 2) : fl32 q ≤ 2 := by
  by_cases hneg : q ≤ -1
  · linarith [fl32_neg_of_le q hneg]
  · have habs : |q| < 2 ^ ((1 : ℤ) + 1) := by
      rw [abs_lt]
      constructor <;> norm_num <;> linarith
    have he := ulpExp32_le q 1 (by norm_num) habs
    have := fl32_le_grid q 1 1 (by omega) (by norm_num; exact h)
    simpa using this

theorem fl32_le_one (q : ℚ) (h : q ≤ 1) : fl32 q ≤ 1 := by
  by_cases hneg : q ≤ -1
  · linarith [fl32_neg_of_le q hneg]
  · have habs : |q| < 2 ^ ((0 : ℤ) + 1) := by
      rw [abs_lt]
      constructor <;> norm_num <;> linarith
    have he := ulpExp32_le q 0 (by norm_num) habs
    have := fl32_le_grid q 0 1 (by omega) (by norm_num; exact h)
    simpa using this

/-! ## `update` in binary32 arithmetic -/

@[simp]
theorem updates32_nil (s : Item) : updates32 s [] = s := rfl

@[simp]
theorem updates32_cons (s : Item) (d : ℚ) (l : List ℚ) :
    updates32 s (d :: l) = updates32 (s.update32 d) l := rfl

theorem update32_m_deactive_time (s : Item) (dt : ℚ) :
    (s.update32 dt).m_deactive_time
      = if s.m_deactive_time > 0 then fl32 (s.m_deactive_time - dt)
        else s.m_deactive_time := by
  unfold Item.update32 Item.updateWith
  simp only []
  split_ifs <;> rfl

theorem update32_not_collected (s : Item) (dt : ℚ) (h : s.m_collected = false) :
    (s.update32 dt).m_collected = false := by
  unfold Item.update32 Item.updateWith
  simp only []
  split_ifs <;> simp_all

theorem updates32_not_collected (l : List ℚ) :
    ∀ s : Item, s.m_collected = false → (updates32 s l).m_collected = false := by
  induction l with
  | nil => intro s h; simpa using h
  | cons d l ih =>
    intro s h
    rw [updates32_cons]
    exact ih _ (update32_not_collected s d h)

theorem update32_collected_expired (s : Item) (dt : ℚ) (h : s.m_collected = true)
    (hneg : fl32 (s.m_time_till_return - dt) < 0) :
    (s.update32 dt).m_collected = false := by
  unfold Item.update32 Item.updateWith
  simp only []
  split_ifs <;> simp_all

theorem update32_collected_pending (s : Item) (dt : ℚ) (h : s.m_collected = true)
    (hpos : 0 ≤ fl32 (s.m_time_till_return - dt)) :
    (s.update32 dt).m_collected = true
      ∧ (s.update32 dt).m_time_till_return = fl32 (s.m_time_till_return - dt) := by
  have hn : ¬ (fl32 (s.m_time_till_return - dt) < 0) := not_lt.mpr hpos
  unfold Item.update32 Item.updateWith
  simp only []
  split_ifs <;> simp_all

theorem halfUlpTwo_pos : 0 < halfUlpTwo := by
  unfold halfUlpTwo
  norm_num

/-- With every subtraction rounded to binary32, a collected item whose timer
is at most 2 stays collected over `n` non-negative steps whose sum leaves a
margin of `n * 2^-24` below the timer. -/
theorem timer32_stays (l : List ℚ) :
    ∀ s : Item, s.m_collected = true → s.m_time_till_return ≤ 2 → (∀ d ∈ l, 0 ≤ d) →
      l.sum ≤ s.m_time_till_return - l.length * halfUlpTwo →
      (updates32 s l).m_collected = true := by
  have he := halfUlpTwo_pos
  induction l with
  | nil => intro s hc _ _ _; simpa using hc
  | cons d l ih =>
    intro s hc h2 hl hsum
    have hd : 0 ≤ d := hl d (List.mem_cons_self d l)
    have hl2 : ∀ e ∈ l, 0 ≤ e := fun e he => hl e (List.mem_cons_of_mem d he)
    have hs : 0 ≤ l.sum := List.sum_nonneg hl2
    have hn : (0 : ℚ) ≤ (l.length : ℚ) * halfUlpTwo :=
      mul_nonneg (Nat.cast_nonneg _) (le_of_lt he)
    rw [List.sum_cons, List.length_cons] at hsum
    push_cast at hsum
    have hy2 : s.m_time_till_return - d ≤ 2 := by linarith
    have hy0 : 0 ≤ s.m_time_till_return - d := by nlinarith
    have herr := fl32_abs_sub_le_two (s.m_time_till_return - d)
      (abs_le.mpr ⟨by linarith, hy2⟩)
    rw [abs_le] at herr
    have hx0 : 0 ≤ fl32 (s.m_time_till_return - d) := fl32_nonneg _ hy0
    obtain ⟨hc1, ht1⟩ := update32_collected_pending s d hc hx0
    rw [updates32_cons]
    refine ih (s.update32 d) hc1 (by rw [ht1]; exact fl32_le_two _ hy2) hl2 ?_
    rw [ht1]
    nlinarith [herr.1]

/-- With every subtraction rounded to binary32, a collected item whose timer
lies between 0 and 2 has returned after `n` non-negative steps whose sum
exceeds the timer by more than `n * 2^-24`. -/
theorem timer32_returns (l : List ℚ) :
    ∀ s : Item, s.m_collected = true → 0 ≤ s.m_time_till_return →
      s.m_time_till_return ≤ 2 → (∀ d ∈ l, 0 ≤ d) →
      s.m_time_till_return + l.length * halfUlpTwo < l.sum →
      (updates32 s l).m_collected = false := by
  have he := halfUlpTwo_pos
  induction l with
  | nil =>
    intro s _ h0 _ _ hsum
    simp at hsum
    linarith
  | cons d l ih =>
    intro s hc h0 h2 hl hsum
    have hd : 0 ≤ d := hl d (List.mem_cons_self d l)
    have hl2 : ∀ e ∈ l, 0 ≤ e := fun e he => hl e (List.mem_cons_of_mem d he)
    rw [List.sum_cons, List.length_cons] at hsum
    push_cast at hsum
    rw [updates32_cons]
    by_cases hneg : fl32 (s.m_time_till_return - d) < 0
    · exact updates32_not_collected l _ (update32_collected_expired s d hc hneg)
    · have hx0 : 0 ≤ fl32 (s.m_time_till_return - d) := not_lt.mp hneg
      have hy2 : s.m_time_till_return - d ≤ 2 := by linarith
      have hym : -1 < s.m_time_till_return - d := by
        by_contra hcon
        exact hneg (fl32_neg_of_le _ (not_lt.mp hcon))
      have herr := fl32_abs_sub_le_two (s.m_time_till_return - d)
        (abs_le.mpr ⟨by linarith, hy2⟩)
      rw [abs_le] at herr
      obtain ⟨hc1, ht1⟩ := update32_collected_pending s d hc hx0
      refine ih (s.update32 d) hc1 (by rw [ht1]; exact hx0)
        (by rw [ht1]; exact fl32_le_two _ hy2) hl2 ?_
      rw [ht1]
      nlinarith [herr.2]

theorem fl32_two_sub_tiny : fl32 (2 - 1 / 1073741824) = 2 := by
  have h := fl32_eq_of_bounds (2 - 1 / 1073741824) 0 16777216 (by norm_num)
    (by rw [abs_of_pos (by norm_num)]; norm_num)
    (by rw [abs_of_pos (by norm_num)]; norm_num)
    (by
      rw [abs_lt]
      constructor <;> norm_num)
  rw [h]
  norm_num

/-- C2 as stated fails in the arithmetic of the code: the sample banana is
collected for 2.0 and updated with `dt = 2^-30` and then `dt = 2`.  The first
subtraction rounds back to 2.0 and the second gives exactly 0, which is not
below 0: the cumulative time 2 + 2^-30 exceeds 2.0 for the first time at the
second update, and the item is still collected after it. -/
theorem collected_two_seconds32_counterexample :
    sampleBanana.m_type ≠ ITEM_BUBBLEGUM
      ∧ (([1 / 1073741824] : List ℚ).sum ≤ 2)
      ∧ (2 < ([1 / 1073741824, 2] : List ℚ).sum)
      ∧ (updates32 (sampleBanana.collected (some 1) 2)
          [1 / 1073741824, 2]).m_collected = true := by
  have hty : sampleBanana.m_type ≠ ITEM_BUBBLEGUM := by simp [sampleBanana, Item.new]
  obtain ⟨hc, ht, _, _⟩ := collected_plain_branch sampleBanana (some 1) 2 (Or.inl hty)
  have h1 := update32_collected_pending (sampleBanana.collected (some 1) 2)
    (1 / 1073741824) hc (by rw [ht, fl32_two_sub_tiny]; norm_num)
  rw [ht, fl32_two_sub_tiny] at h1
  have h2 := update32_collected_pending
    ((sampleBanana.collected (some 1) 2).update32 (1 / 1073741824)) 2 h1.1
    (by rw [h1.2, sub_self, fl32_zero])
  refine ⟨hty, by norm_num, by norm_num, ?_⟩
  simpa using h2.1

/-- C2, amended: for an item whose type is not `BUBBLEGUM`, after
`collected(actor, 2.0)` and `k` updates with steps `dt_i >= 0`, computed in
binary32, the item is still collected if the cumulative elapsed time is at
most `2 - k * 2^-24`, and it is no longer collected if the cumulative elapsed
time exceeds `2 + k * 2^-24`.  The state after the first `k` updates is
`updates32 _ (dts.take k)`. -/
theorem collected_two_seconds32 (s : Item) (actor : KartPtr) (dts : List ℚ)
    (k : Nat) (hty : s.m_type ≠ ITEM_BUBBLEGUM) (hdt : ∀ d ∈ dts, 0 ≤ d) :
    ((dts.take k).sum ≤ 2 - (dts.take k).length * halfUlpTwo →
        (updates32 (s.collected actor 2) (dts.take k)).m_collected = true)
      ∧ (2 + (dts.take k).length * halfUlpTwo < (dts.take k).sum →
        (updates32 (s.collected actor 2) (dts.take k)).m_collected = false) := by
  obtain ⟨hc, ht, _, _⟩ := collected_plain_branch s actor 2 (Or.inl hty)
  have hl : ∀ d ∈ dts.take k, 0 ≤ d := fun d hd => hdt d (List.mem_of_mem_take hd)
  refine ⟨fun h => ?_, fun h => ?_⟩
  · exact timer32_stays (dts.take k) (s.collected actor 2) hc (by rw [ht]) hl
      (by rw [ht]; exact h)
  · exact timer32_returns (dts.take k) (s.collected actor 2) hc (by rw [ht]; norm_num)
      (by rw [ht]) hl (by rw [ht]; exact h)

/-- Witness of C2: the sample banana, collected for 2 seconds and updated with
the steps 1/2, 1, 1: still collected after two steps (1.5 s), returned after
the third (2.5 s). -/
theorem collected_two_seconds32_witness :
    (updates32 (sampleBanana.collected (some 1) 2)
        (([1 / 2, 1, 1] : List ℚ).take 2)).m_collected = true
      ∧ (updates32 (sampleBanana.collected (some 1) 2)
        (([1 / 2, 1, 1] : List ℚ).take 3)).m_collected = false :=
  ⟨(collected_two_seconds32 sampleBanana (some 1) [1 / 2, 1, 1] 2
      (by simp [sampleBanana, Item.new])
      (by intro d hd; simp at hd; rcases hd with h | h <;> subst h <;> norm_num)).1
      (by simp [halfUlpTwo]; norm_num),
   (collected_two_seconds32 sampleBanana (some 1) [1 / 2, 1, 1] 3
      (by simp [sampleBanana, Item.new])
      (by intro d hd; simp at hd; rcases hd with h | h <;> subst h <;> norm_num)).2
      (by simp [halfUlpTwo]; norm_num)⟩

/-! ## The window after `setParent`, in binary32 arithmetic -/

/-- With every subtraction rounded to binary32, a deactivate time of at most 2
that exceeds the sum of `n` non-negative steps by more than `n * 2^-24` is
still positive after the steps and within `n * 2^-24` of the exact
difference. -/
theorem deactive32_running (l : List ℚ) :
    ∀ s : Item, s.m_deactive_time ≤ 2 → (∀ d ∈ l, 0 ≤ d) →
      l.sum < s.m_deactive_time - l.length * halfUlpTwo →
      0 < (updates32 s l).m_deactive_time
        ∧ |(updates32 s l).m_deactive_time - (s.m_deactive_time - l.sum)|
            ≤ l.length * halfUlpTwo := by
  have he := halfUlpTwo_pos
  induction l with
  | nil =>
    intro s _ _ hsum
    simp at hsum
    simpa using hsum
  | cons d l ih =>
    intro s h2 hl hsum
    have hd : 0 ≤ d := hl d (List.mem_cons_self d l)
    have hl2 : ∀ e ∈ l, 0 ≤ e := fun e he => hl e (List.mem_cons_of_mem d he)
    have hs : 0 ≤ l.sum := List.sum_nonneg hl2
    have hn : (0 : ℚ) ≤ (l.length : ℚ) * halfUlpTwo :=
      mul_nonneg (Nat.cast_nonneg _) (le_of_lt he)
    rw [List.sum_cons, List.length_cons] at hsum
    push_cast at hsum
    have hpos : s.m_deactive_time > 0 := by nlinarith
    have hy2 : s.m_deactive_time - d ≤ 2 := by linarith
    have hy0 : 0 ≤ s.m_deactive_time - d := by nlinarith
    have herr := fl32_abs_sub_le_two (s.m_deactive_time - d)
      (abs_le.mpr ⟨by linarith, hy2⟩)
    rw [abs_le] at herr
    have h1 : (s.update32 d).m_deactive_time = fl32 (s.m_deactive_time - d) := by
      rw [update32_m_deactive_time, if_pos hpos]
    obtain ⟨ihpos, iherr⟩ := ih (s.update32 d) (by rw [h1]; exact fl32_le_two _ hy2) hl2
      (by rw [h1]; nlinarith [herr.1])
    rw [h1, abs_le] at iherr
    rw [updates32_cons, List.sum_cons, List.length_cons]
    push_cast
    refine ⟨ihpos, ?_⟩
    rw [abs_le]
    constructor
    · nlinarith [iherr.1, herr.1]
    · nlinarith [iherr.2, herr.2]

theorem deactive32_expired (l : List ℚ) :
    ∀ s : Item, s.m_deactive_time ≤ 0 →
      (updates32 s l).m_deactive_time = s.m_deactive_time := by
  induction l with
  | nil => intro s _; simp
  | cons d l ih =>
    intro s h
    have h1 : (s.update32 d).m_deactive_time = s.m_deactive_time := by
      rw [update32_m_deactive_time, if_neg (not_lt.mpr h)]
    rw [updates32_cons, ih (s.update32 d) (by rw [h1]; exact h), h1]

theorem fl32_three_halves_sub_tiny : fl32 (3 / 2 - 1 / 1073741824) = 3 / 2 := by
  have h := fl32_eq_of_bounds (3 / 2 - 1 / 1073741824) 0 12582912 (by norm_num)
    (by rw [abs_of_pos (by norm_num)]; norm_num)
    (by rw [abs_of_pos (by norm_num)]; norm_num)
    (by
      rw [abs_lt]
      constructor <;> norm_num)
  rw [h]
  norm_num

/-- C16 as stated fails in the arithmetic of the code: after `setParent` on the
sample bubblegum and one `update(2^-30)` the cumulative time is 2^-30 < 1.5,
but the subtraction rounds back to 1.5, so the deactivate time is 1.5 and not
1.5 - 2^-30. -/
theorem setParent_window32_counterexample :
    (0 : ℚ) ≤ 1 / 1073741824
      ∧ ([1 / 1073741824] : List ℚ).sum < 3 / 2
      ∧ (updates32 (sampleGum.setParent (some 1)) [1 / 1073741824]).m_deactive_time = 3 / 2
      ∧ (updates32 (sampleGum.setParent (some 1)) [1 / 1073741824]).m_deactive_time
          ≠ 3 / 2 - ([1 / 1073741824] : List ℚ).sum := by
  have h : (updates32 (sampleGum.setParent (some 1)) [1 / 1073741824]).m_deactive_time
      = 3 / 2 := by
    rw [updates32_cons, updates32_nil, update32_m_deactive_time]
    have h0 : (sampleGum.setParent (some 1)).m_deactive_time = 3 / 2 := rfl
    rw [h0, if_pos (by norm_num), fl32_three_halves_sub_tiny]
  refine ⟨by norm_num, by norm_num, h, ?_⟩
  rw [h]
  norm_num

/-- C16, amended: `setParent(actor)` sets `event_handler = actor` and
`deactivate_time = 1.5` and changes no other field; after `k` following
updates with steps `dt_i >= 0`, computed in binary32, whose cumulative elapsed
time `T` is below `1.5 - k * 2^-24`, the deactivate time is positive and
differs from `1.5 - T` by at most `k * 2^-24`; and from any state whose
deactivate time is `<= 0`, updates leave it unchanged. -/
theorem setParent_window32 (s : Item) (actor : KartPtr) :
    s.setParent actor = { s with m_event_handler := actor, m_deactive_time := 3 / 2 }
      ∧ (∀ dts : List ℚ, (∀ d ∈ dts, 0 ≤ d) →
          dts.sum < 3 / 2 - dts.length * halfUlpTwo →
          0 < (updates32 (s.setParent actor) dts).m_deactive_time
            ∧ |(updates32 (s.setParent actor) dts).m_deactive_time - (3 / 2 - dts.sum)|
                ≤ dts.length * halfUlpTwo)
      ∧ (∀ (s2 : Item) (dts : List ℚ), s2.m_deactive_time ≤ 0 →
          (updates32 s2 dts).m_deactive_time = s2.m_deactive_time) := by
  refine ⟨rfl, ?_, fun s2 dts h => deactive32_expired dts s2 h⟩
  intro dts hl hsum
  have h2 : (s.setParent actor).m_deactive_time = 3 / 2 := rfl
  have h := deactive32_running dts (s.setParent actor) (by rw [h2]; norm_num) hl
    (by rw [h2]; exact hsum)
  rw [h2] at h
  exact h

/-- Witness of C16: the sample bubblegum dropped by kart 1 and updated with
the steps 1/2 and 3/4: the deactivate time is positive and within 2 * 2^-24
of 1.5 - 1.25. -/
theorem setParent_window32_witness :
    0 < (updates32 (sampleGum.setParent (some 1)) [1 / 2, 3 / 4]).m_deactive_time
      ∧ |(updates32 (sampleGum.setParent (some 1)) [1 / 2, 3 / 4]).m_deactive_time
            - (3 / 2 - ([1 / 2, 3 / 4] : List ℚ).sum)|
          ≤ ([1 / 2, 3 / 4] : List ℚ).length * halfUlpTwo :=
  (setParent_window32 sampleGum (some 1)).2.1 [1 / 2, 3 / 4]
    (by intro d hd; simp at hd; rcases hd with h | h <;> subst h <;> norm_num)
    (by simp [halfUlpTwo]; norm_num)

/-! ## The grow-in animation, in binary32 arithmetic -/

theorem update32_grow_in_state (s : Item) (dt : ℚ) (hc : s.m_collected = true)
    (hlo : 0 ≤ fl32 (s.m_time_till_return - dt))
    (hhi : fl32 (s.m_time_till_return - dt) ≤ 1) :
    (s.update32 dt).m_node.visible = true
      ∧ (s.update32 dt).m_node.scale
          = vector3df.smulWith fl32 ⟨1, 1, 1⟩ (fl32 (1 - fl32 (s.m_time_till_return - dt))) := by
  have hn : ¬ (fl32 (s.m_time_till_return - dt) < 0) := not_lt.mpr hlo
  unfold Item.update32 Item.updateWith
  simp only []
  split_ifs <;> simp_all

theorem fl32_tiny : fl32 (1 / 1073741824) = 1 / 1073741824 := by
  have h := fl32_pow_two (-30) (by norm_num)
  have h2 : (2 : ℚ) ^ (-30 : ℤ) = 1 / 1073741824 := by norm_num
  rw [h2] at h
  exact h

theorem fl32_one_sub_tiny : fl32 (1 - 1 / 1073741824) = 1 := by
  have h := fl32_eq_of_bounds (1 - 1 / 1073741824) (-1) 16777216 (by norm_num)
    (by rw [abs_of_pos (by norm_num)]; norm_num)
    (by rw [abs_of_pos (by norm_num)]; norm_num)
    (by
      rw [abs_lt]
      constructor <;> norm_num)
  rw [h]
  norm_num

theorem fl32_one : fl32 1 = 1 := by
  have h := fl32_pow_two 0 (by norm_num)
  simpa using h

end STK
